import Mathlib

/-!
Verification of the hpl file decoder in src/pipeline/filehandlers.py
(class HplHandler, method read).

The decoder is embedded shallowly:

* a file is a list of lines (without trailing newlines); reading a line
  past the end of the stream yields the empty string, as Python readline
  does at EOF;
* Python float values that arise from parsing tokens are modelled by
  FVal, either a rational number or the NaN sentinel (the decoder only
  ever fills buffers with parsed values or the NaN initializer, and the
  only arithmetic performed, the decimal-hour to microsecond conversion,
  is carried out here in exact rational arithmetic);
* the numpy buffers are total functions from indices to FVal together
  with explicit bound checks replicating numpy indexing, including the
  wrap-around of negative indices;
* every Python exception the method can raise (IndexError on a short
  token list, IndexError from numpy indexing, ValueError from float/int
  conversion, KeyError / TypeError on the metadata dictionary) becomes a
  constructor of ReadErr, carrying exactly the information the Python
  exception message carries.
-/

namespace Hpl

/-- A parsed floating-point value: either the NaN sentinel (numpy
initializes all buffers with nan, and Python float parsing accepts the
token nan) or an exact rational. -/
inductive FVal where
  | nan : FVal
  | num (q : ℚ) : FVal
deriving DecidableEq, Repr

/-- Whether a value is the missing-value sentinel, as np.isnan tests. -/
def FVal.isNan : FVal → Bool
  | .nan => true
  | .num _ => false

/-! ### String primitives

Python str.split() (whitespace, empties dropped) and str.split(a single
separator character, empties kept) are re-implemented structurally over
character lists so that every definition reduces inside the kernel. -/

/-- Python str.split(sep) for a one-character separator: split on every
occurrence, keeping empty pieces. -/
def splitOnCharAux (c : Char) : List Char → List (List Char)
  | [] => [[]]
  | x :: xs =>
    if x = c then [] :: splitOnCharAux c xs
    else
      match splitOnCharAux c xs with
      | [] => [[x]]
      | g :: gs => (x :: g) :: gs

/-- line.split(a one-character separator) as used for the colon split of
header lines. -/
def splitColon (s : String) : List String :=
  (splitOnCharAux ':' s.data).map String.mk

/-- Helper for whitespace splitting: accumulates the current token
(reversed). -/
def pySplitAux : List Char → List Char → List String
  | [], acc => if acc = [] then [] else [String.mk acc.reverse]
  | x :: xs, acc =>
    if x.isWhitespace then
      if acc = [] then pySplitAux xs []
      else String.mk acc.reverse :: pySplitAux xs []
    else pySplitAux xs (x :: acc)

/-- Python str.split() with no argument: split on runs of whitespace,
discarding empty tokens.  A blank line and the empty string both split
to the empty list. -/
def pySplit (s : String) : List String := pySplitAux s.data []

/-! ### Numeric token parsing

Python float(token) and int(token) on the token grammars the data files
use: optional surrounding whitespace, an optional sign, a digit run with
an optional fractional part for floats, and the nan literal. -/

/-- Strip leading and trailing whitespace from a character list, as the
Python numeric constructors do before parsing. -/
def trimC (l : List Char) : List Char :=
  (((l.dropWhile Char.isWhitespace).reverse).dropWhile Char.isWhitespace).reverse

/-- Numeric value of a run of decimal digits. -/
def digitsVal (l : List Char) : ℕ :=
  l.foldl (fun a c => 10 * a + (c.toNat - 48)) 0

/-- All characters are decimal digits. -/
def allDigits (l : List Char) : Bool := l.all Char.isDigit

/-- An unsigned Python float literal, as a numerator-denominator pair:
digits, or digits.digits with one side possibly empty. -/
def pyUnsigned? (l : List Char) : Option (ℕ × ℕ) :=
  let ip := l.takeWhile (fun c => c != '.')
  let rest := l.dropWhile (fun c => c != '.')
  match rest with
  | [] =>
    if ip ≠ [] ∧ allDigits ip then some (digitsVal ip, 1) else none
  | _ :: frac =>
    if (ip ≠ [] ∨ frac ≠ []) ∧ allDigits ip ∧ allDigits frac then
      some (digitsVal ip * 10 ^ frac.length + digitsVal frac, 10 ^ frac.length)
    else none

/-- Python float(token) on the supported grammar; none models the
ValueError raised on anything else.  The value is built with mkRat so
that it reduces inside the kernel. -/
def pyFloat? (s : String) : Option FVal :=
  let l := trimC s.data
  if l = ['n', 'a', 'n'] ∨ l = ['N', 'a', 'N'] then some .nan
  else
    match l with
    | '-' :: rest =>
      (pyUnsigned? rest).map fun p => FVal.num (mkRat (-(p.1 : ℤ)) p.2)
    | '+' :: rest =>
      (pyUnsigned? rest).map fun p => FVal.num (mkRat p.1 p.2)
    | _ =>
      (pyUnsigned? l).map fun p => FVal.num (mkRat p.1 p.2)

/-- Python int(token): optional whitespace, optional sign, digits; none
models the ValueError raised on anything else. -/
def pyInt? (s : String) : Option ℤ :=
  let l := trimC s.data
  match l with
  | '-' :: rest =>
    if rest ≠ [] ∧ allDigits rest then some (-(digitsVal rest : ℤ)) else none
  | '+' :: rest =>
    if rest ≠ [] ∧ allDigits rest then some ((digitsVal rest : ℤ)) else none
  | _ =>
    if l ≠ [] ∧ allDigits l then some ((digitsVal l : ℤ)) else none

/-! ### Errors

Each constructor corresponds to a Python exception the method can
raise, carrying exactly the data the exception message carries: a plain
IndexError from indexing a too-short token list has no payload at all,
a numpy IndexError names the offending index and the axis size, a
ValueError names the offending token, a KeyError names the missing
key. -/

inductive ReadErr where
  /-- IndexError from indexing a Python list out of range; the message
  is the constant string list index out of range, so it carries no
  information about where in the input the failure happened. -/
  | listIndexError : ReadErr
  /-- IndexError raised by numpy fancy indexing: index out of bounds
  for the axis of the given size. -/
  | numpyOob (idx : ℤ) (size : ℕ) : ReadErr
  /-- ValueError from int() or float() on an unparseable token. -/
  | valueError (token : String) : ReadErr
  /-- KeyError from looking up a missing metadata key. -/
  | keyError (key : String) : ReadErr
  /-- TypeError from applying int() or float() to a list value. -/
  | typeError : ReadErr
  /-- ValueError from np.empty with a negative dimension. -/
  | negDims : ReadErr
deriving DecidableEq, Repr

/-! ### Header metadata (filehandlers.py lines 44-63)

The Python metadata dict maps strings either to a string (the ordinary
branch, metadata[metaline[0]] = metaline[1]) or to a list of strings
(the Start time branch, metadata[Start time] = metaline[1:]). -/

inductive HVal where
  | vStr (s : String) : HVal
  | vList (l : List String) : HVal
deriving DecidableEq, Repr

/-- The metadata dictionary, as an insertion-ordered association list
with Python-dict update semantics. -/
abbrev Metadata := List (String × HVal)

/-- Python dict assignment: replace the first binding of the key, or
append a new one. -/
def setEntry (md : Metadata) (k : String) (v : HVal) : Metadata :=
  match md with
  | [] => [(k, v)]
  | (k0, v0) :: rest =>
    if k0 = k then (k, v) :: rest else (k0, v0) :: setEntry rest k v

/-- Python dict lookup. -/
def lookupMeta (md : Metadata) (k : String) : Option HVal :=
  match md with
  | [] => none
  | (k0, v0) :: rest => if k0 = k then some v0 else lookupMeta rest k

/-- One iteration of the metadata loop (lines 51-56): split the line on
the colon; if the literal Start time occurs among the tokens, store the
tokens from index 1 on under the key Start time, otherwise store
token 1 under token 0 (IndexError when the line has no colon). -/
def processLine (md : Metadata) (line : String) : Except ReadErr Metadata :=
  let metaline := splitColon line
  if "Start time" ∈ metaline then
    .ok (setEntry md "Start time" (.vList metaline.tail))
  else
    match metaline with
    | t0 :: t1 :: _ => .ok (setEntry md t0 (.vStr t1))
    | _ => .error .listIndexError

/-- The metadata loop over the collected header lines. -/
def parseMetadata : List String → Metadata → Except ReadErr Metadata
  | [], md => .ok md
  | l :: ls, md =>
    match processLine md l with
    | .error e => .error e
    | .ok md1 => parseMetadata ls md1

/-- num_gates = int(metadata[Number of gates]) (line 59). -/
def getNumGates (md : Metadata) : Except ReadErr ℤ :=
  match lookupMeta md "Number of gates" with
  | none => .error (.keyError "Number of gates")
  | some (.vList _) => .error .typeError
  | some (.vStr s) =>
    match pyInt? s with
    | none => .error (.valueError s)
    | some z => .ok z

/-! ### The record buffers (lines 69-87)

np.empty followed by filling with nan; buffers are total functions with
bound checks made explicit at each write. -/

/-- The fixed buffer capacity max_len (line 69). -/
def maxLen : ℕ := 10000

/-- The eight pre-allocated parallel buffers. -/
structure Buffers where
  time : ℕ → FVal
  azimuth : ℕ → FVal
  elevation : ℕ → FVal
  pitch : ℕ → FVal
  roll : ℕ → FVal
  doppler : ℕ → ℕ → FVal
  intensity : ℕ → ℕ → FVal
  beta : ℕ → ℕ → FVal

/-- All buffers initialized to the nan sentinel (lines 80-87). -/
def initBuffers : Buffers :=
  { time := fun _ => .nan
    azimuth := fun _ => .nan
    elevation := fun _ => .nan
    pitch := fun _ => .nan
    roll := fun _ => .nan
    doppler := fun _ _ => .nan
    intensity := fun _ _ => .nan
    beta := fun _ _ => .nan }

/-- Pointwise update of a one-dimensional buffer. -/
def setF (f : ℕ → FVal) (i : ℕ) (v : FVal) : ℕ → FVal :=
  fun j => if j = i then v else f j

/-- Pointwise update of a two-dimensional buffer at row i, column g. -/
def set2 (f : ℕ → ℕ → FVal) (i g : ℕ) (v : FVal) : ℕ → ℕ → FVal :=
  fun j k => if j = i ∧ k = g then v else f j k

/-- numpy write buf[i] = v on a 1-d buffer of length maxLen: IndexError
when the index is out of bounds. -/
def npSet1 (f : ℕ → FVal) (i : ℕ) (v : FVal) : Except ReadErr (ℕ → FVal) :=
  if i < maxLen then .ok (setF f i v)
  else .error (.numpyOob i maxLen)

/-- numpy write buf[i, rg] = v on a (maxLen, n) buffer: non-negative
column indices must be below n, negative column indices wrap around to
n + rg as numpy indexing does, anything else is an IndexError. -/
def npSet2 (f : ℕ → ℕ → FVal) (i : ℕ) (rg : ℤ) (n : ℕ) (v : FVal) :
    Except ReadErr (ℕ → ℕ → FVal) :=
  if i < maxLen then
    if 0 ≤ rg ∧ rg < n then .ok (set2 f i rg.toNat v)
    else if -(n : ℤ) ≤ rg ∧ rg < 0 then .ok (set2 f i ((n : ℤ) + rg).toNat v)
    else .error (.numpyOob rg n)
  else .error (.numpyOob i maxLen)

/-! ### The line stream -/

/-- f.readline() on the remaining lines: past the end of the stream
Python returns the empty string. -/
def readline : List String → String × List String
  | [] => ("", [])
  | l :: ls => (l, ls)

/-- n consecutive readline calls, returning the lines read (padded with
empty strings at end of stream) and the remaining stream. -/
def readN : ℕ → List String → List String × List String
  | 0, ls => ([], ls)
  | n + 1, ls =>
    let r := readline ls
    let rest := readN n r.2
    (r.1 :: rest.1, rest.2)

/-! ### The record stream decoder (lines 89-115) -/

/-- Python list indexing tokens[i]: IndexError when absent. -/
def getTok (l : List String) (i : ℕ) : Except ReadErr String :=
  match l.get? i with
  | some t => .ok t
  | none => .error .listIndexError

/-- float(token): ValueError when the token does not parse. -/
def parseF (t : String) : Except ReadErr FVal :=
  match pyFloat? t with
  | some v => .ok v
  | none => .error (.valueError t)

/-- int(token): ValueError when the token does not parse. -/
def parseI (t : String) : Except ReadErr ℤ :=
  match pyInt? t with
  | some z => .ok z
  | none => .error (.valueError t)

/-- The five scalar assignments of one record (lines 97-101), in source
order: each a[i] is fetched (IndexError), parsed (ValueError) and
written (numpy IndexError) before the next token is touched. -/
def readScalarLine (idx : ℕ) (st : Buffers) (a : List String) :
    Except ReadErr Buffers := do
  let v0 ← getTok a 0 >>= parseF
  let tm ← npSet1 st.time idx v0
  let v1 ← getTok a 1 >>= parseF
  let az ← npSet1 st.azimuth idx v1
  let v2 ← getTok a 2 >>= parseF
  let el ← npSet1 st.elevation idx v2
  let v3 ← getTok a 3 >>= parseF
  let pi ← npSet1 st.pitch idx v3
  let v4 ← getTok a 4 >>= parseF
  let ro ← npSet1 st.roll idx v4
  return { st with time := tm, azimuth := az, elevation := el,
                   pitch := pi, roll := ro }

/-- One iteration of the gate loop body (lines 104-108): split the
line, parse the declared gate index with int, then fetch, parse and
write the doppler, intensity and beta tokens in source order. -/
def readGateLine (idx n : ℕ) (st : Buffers) (line : String) :
    Except ReadErr Buffers := do
  let b := pySplit line
  let rg ← getTok b 0 >>= parseI
  let v1 ← getTok b 1 >>= parseF
  let dop ← npSet2 st.doppler idx rg n v1
  let v2 ← getTok b 2 >>= parseF
  let ity ← npSet2 st.intensity idx rg n v2
  let v3 ← getTok b 3 >>= parseF
  let bet ← npSet2 st.beta idx rg n v3
  return { st with doppler := dop, intensity := ity, beta := bet }

/-- The for i in range(num_gates) loop (lines 103-108): m is the loop
counter, n the total gate count used for the bound checks; each
iteration reads one line from the stream. -/
def readGates (n : ℕ) : ℕ → ℕ → Buffers → List String →
    Except ReadErr (Buffers × List String)
  | 0, _, st, lines => .ok (st, lines)
  | m + 1, idx, st, lines =>
    match readGateLine idx n st (readline lines).1 with
    | .error e => .error e
    | .ok st1 => readGates n m idx st1 (readline lines).2

/-- The while True record loop (lines 91-115), structurally recursive
on a fuel argument; every iteration consumes at least one line of the
stream, so fuel = number of remaining lines suffices, and with zero
lines remaining the loop terminates at the blank-split check exactly as
the Python loop does on the empty string readline returns at EOF. -/
def readRecordsAux (n : ℕ) : ℕ → List String → ℕ → Buffers →
    Except ReadErr Buffers
  | 0, _, _, st => .ok st
  | fuel + 1, lines, idx, st =>
    let a := pySplit (readline lines).1
    if a = [] then .ok st
    else
      match readScalarLine idx st a with
      | .error e => .error e
      | .ok st1 =>
        match readGates n n idx st1 (readline lines).2 with
        | .error e => .error e
        | .ok (st2, rest) => readRecordsAux n fuel rest (idx + 1) st2

/-- The record stream decoder: run the record loop on the stream left
after the header. -/
def readRecords (n : ℕ) (lines : List String) (idx : ℕ) (st : Buffers) :
    Except ReadErr Buffers :=
  readRecordsAux n lines.length lines idx st

/-! ### Trimming (line 119) -/

/-- Scan of the time buffer for the first nan entry, starting at i with
the given fuel; np.where(np.isnan(time))[0][0] is its result on fuel
maxLen from 0, and the IndexError on the empty where-result corresponds
to none. -/
def scanNan (t : ℕ → FVal) : ℕ → ℕ → Option ℕ
  | _, 0 => none
  | i, fuel + 1 => if (t i).isNan then some i else scanNan t (i + 1) fuel

/-- last_ind = np.where(np.isnan(time))[0][0]: the first index of the
time buffer holding the nan sentinel. -/
def firstNan (t : ℕ → FVal) : Option ℕ := scanNan t 0 maxLen

/-- buf[:k] on a 1-d buffer. -/
def sliceF (f : ℕ → FVal) (k : ℕ) : List FVal :=
  (List.range k).map f

/-- buf[:k, :] on a (maxLen, n) buffer: k rows of n gates each. -/
def sliceRows (f : ℕ → ℕ → FVal) (k n : ℕ) : List (List FVal) :=
  (List.range k).map fun i => (List.range n).map fun g => f i g

/-! ### The time axis (lines 137-153) -/

/-- A calendar date; np.datetime64 values produced by the method are a
date (whose time-of-day components are hard-coded to 00:00:00.00 in the
format string of line 138) plus a microsecond offset. -/
structure Date where
  year : ℕ
  month : ℕ
  day : ℕ
deriving DecidableEq, Repr

/-- A derived timestamp: the base date at implicit midnight plus a
signed microsecond offset. -/
structure Timestamp where
  date : Date
  us : ℤ
deriving DecidableEq, Repr

/-- Python int() on a rational: truncation toward zero (Int.tdiv is
T-division, and a reduced rational is num / den). -/
def truncRat (q : ℚ) : ℤ := Int.tdiv q.num q.den

/-- int(3600 * 1e6 * t) for a rational t, computed entirely in integer
arithmetic so that it reduces inside the kernel: the truncation toward
zero of the real number 3600000000 * t is the T-division of
3600000000 * t.num by t.den. -/
def usOfHours (q : ℚ) : ℤ := Int.tdiv (3600000000 * q.num) (q.den : ℤ)

/-- Lines 138-146: metadata[Start time][0] is sliced at the fixed
character offsets [1:5], [5:7], [7:9] for year, month and day, the
time-of-day is the literal 00:00:00.00, and the composed string is
parsed by np.datetime64, which raises ValueError unless the slices are
digit runs forming a valid date. -/
def mkStartDate (md : Metadata) : Except ReadErr Date :=
  match lookupMeta md "Start time" with
  | none => .error (.keyError "Start time")
  | some (.vStr s) =>
    if s.data = [] then .error .listIndexError else .error (.valueError s)
  | some (.vList l) =>
    match l.get? 0 with
    | none => .error .listIndexError
    | some s =>
      let yc := (s.data.drop 1).take 4
      let mc := (s.data.drop 5).take 2
      let dc := (s.data.drop 7).take 2
      if yc.length = 4 ∧ allDigits yc ∧ mc.length = 2 ∧ allDigits mc ∧
          dc.length = 2 ∧ allDigits dc ∧
          1 ≤ digitsVal mc ∧ digitsVal mc ≤ 12 ∧
          1 ≤ digitsVal dc ∧ digitsVal dc ≤ 31 then
        .ok ⟨digitsVal yc, digitsVal mc, digitsVal dc⟩
      else .error (.valueError s)

/-- Line 150: start_time + np.timedelta64(int(3600 * 1e6 * t), us).
Applying int() to a nan float raises ValueError. -/
def mkTimestamp (d : Date) (t : FVal) : Except ReadErr Timestamp :=
  match t with
  | .nan => .error (.valueError "nan")
  | .num q => .ok ⟨d, usOfHours q⟩

/-- Effectful map over a list in the Except monad, stopping at the
first error, as the Python for loop of lines 149-150 does. -/
def mapME (f : α → Except ReadErr β) : List α → Except ReadErr (List β)
  | [] => .ok []
  | x :: xs =>
    match f x with
    | .error e => .error e
    | .ok y =>
      match mapME f xs with
      | .error e => .error e
      | .ok ys => .ok (y :: ys)

/-- Decidable equality of decoder results, for concrete evaluation. -/
instance {e a : Type} [DecidableEq e] [DecidableEq a] : DecidableEq (Except e a) :=
  fun x y =>
    match x, y with
    | .ok u, .ok v =>
      match decEq u v with
      | isTrue h => isTrue (by rw [h])
      | isFalse h => isFalse (by intro hc; cases hc; exact h rfl)
    | .error u, .error v =>
      match decEq u v with
      | isTrue h => isTrue (by rw [h])
      | isFalse h => isFalse (by intro hc; cases hc; exact h rfl)
    | .ok _, .error _ => isFalse (by intro hc; cases hc)
    | .error _, .ok _ => isFalse (by intro hc; cases hc)

/-! ### The output dataset (lines 122-158) -/

/-- The xr.Dataset the method returns: the coordinate axes, the five
per-record scalar fields, the three per-record-per-gate fields, the
derived timestamps and the single attribute. -/
structure Dataset where
  range_gate : List ℕ
  decimalTime : List FVal
  azimuth : List FVal
  elevation : List FVal
  pitch : List FVal
  roll : List FVal
  doppler : List (List FVal)
  intensity : List (List FVal)
  beta : List (List FVal)
  timestamp : List Timestamp
  timeCoord : List Timestamp
  rangeGateLength : FVal
deriving DecidableEq, Repr

/-- Lines 118-158 after the record loop: trim at the first nan of the
time buffer, slice every buffer to that length (the Beta field is
assigned the intensity slice, replicating line 135 as written), build
the timestamp axis and parse the range-gate-length attribute. -/
def assemble (md : Metadata) (n : ℕ) (st : Buffers) :
    Except ReadErr Dataset := do
  let li ← match firstNan st.time with
           | none => Except.error (ReadErr.numpyOob 0 0)
           | some k => Except.ok k
  let dt := sliceF st.time li
  let d ← mkStartDate md
  let tt ← mapME (mkTimestamp d) dt
  let rgl ← match lookupMeta md "Range gate length (m)" with
            | none => Except.error (ReadErr.keyError "Range gate length (m)")
            | some (.vList _) => Except.error ReadErr.typeError
            | some (.vStr s) => parseF s
  return { range_gate := List.range n
           decimalTime := dt
           azimuth := sliceF st.azimuth li
           elevation := sliceF st.elevation li
           pitch := sliceF st.pitch li
           roll := sliceF st.roll li
           doppler := sliceRows st.doppler li n
           intensity := sliceRows st.intensity li n
           beta := sliceRows st.intensity li n
           timestamp := tt
           timeCoord := tt
           rangeGateLength := rgl }

/-- The header and record-loop stages (lines 44-115): read 11 header
lines, build the metadata dict, convert num_gates, discard 6 label
lines, run the record loop on the rest of the stream. -/
def stageBuffers (lines : List String) : Except ReadErr (Metadata × ℕ × Buffers) := do
  let hdr := readN 11 lines
  let md ← parseMetadata hdr.1 []
  let z ← getNumGates md
  if z < 0 then throw .negDims
  else
    let n := z.toNat
    let rest := readN 6 hdr.2
    let st ← readRecords n rest.2 0 initBuffers
    return (md, n, st)

/-- HplHandler.read: the whole method, from the line stream of the open
file to the returned dataset or the Python exception raised. -/
def HplHandler.read (lines : List String) : Except ReadErr Dataset := do
  let s ← stageBuffers lines
  assemble s.1 s.2.1 s.2.2

end Hpl

namespace Hpl

/-! ### Structured record groups

To quantify over well-formed data sections, a record group is a scalar
line plus its gate lines; flattening recovers the raw line stream the
decoder consumes. -/

/-- One record group of the data section: the scalar line and the gate
lines following it. -/
structure RecordGroup where
  scalar : String
  gates : List String

/-- The raw lines of a list of record groups, in stream order. -/
def flattenGroups (gs : List RecordGroup) : List String :=
  (gs.map fun g => g.scalar :: g.gates).flatten

/-- The five parsed scalar values of a scalar line (defaults never
surface on well-formed lines). -/
def scalarVals (s : String) : FVal × FVal × FVal × FVal × FVal :=
  let a := pySplit s
  let v := fun i => (((a.get? i).bind pyFloat?).getD .nan)
  (v 0, v 1, v 2, v 3, v 4)

/-- The parsed gate index and three parsed values of a gate line. -/
def gateVals (s : String) : ℤ × FVal × FVal × FVal :=
  let b := pySplit s
  ((((b.get? 0).bind pyInt?).getD 0),
   (((b.get? 1).bind pyFloat?).getD .nan),
   (((b.get? 2).bind pyFloat?).getD .nan),
   (((b.get? 3).bind pyFloat?).getD .nan))

/-- A well-formed scalar line: at least five whitespace tokens, the
first five parseable as floats. -/
def wfScalar (s : String) : Bool :=
  match pySplit s with
  | t0 :: t1 :: t2 :: t3 :: t4 :: _ =>
    (pyFloat? t0).isSome && (pyFloat? t1).isSome && (pyFloat? t2).isSome &&
      (pyFloat? t3).isSome && (pyFloat? t4).isSome
  | _ => false

/-- A well-formed gate line for n gates: at least four tokens, an
integer first token whose value lies in [0, n), floats after it. -/
def wfGate (n : ℕ) (s : String) : Bool :=
  match pySplit s with
  | t0 :: t1 :: t2 :: t3 :: _ =>
    (match pyInt? t0 with
     | some rg => decide (0 ≤ rg ∧ rg < (n : ℤ))
     | none => false) &&
      (pyFloat? t1).isSome && (pyFloat? t2).isSome && (pyFloat? t3).isSome
  | _ => false

/-- A well-formed record group for n gates. -/
def wfGroup (n : ℕ) (g : RecordGroup) : Bool :=
  wfScalar g.scalar && g.gates.length == n && g.gates.all (wfGate n)

/-- The pure effect of a successfully decoded scalar line on the
buffers. -/
def applyScalar (idx : ℕ) (st : Buffers) (s : String) : Buffers :=
  let v := scalarVals s
  { st with time := setF st.time idx v.1
            azimuth := setF st.azimuth idx v.2.1
            elevation := setF st.elevation idx v.2.2.1
            pitch := setF st.pitch idx v.2.2.2.1
            roll := setF st.roll idx v.2.2.2.2 }

/-- The pure effect of a successfully decoded in-range gate line on the
buffers: the values land at the gate index the line itself declares. -/
def applyGate (idx : ℕ) (st : Buffers) (s : String) : Buffers :=
  let v := gateVals s
  { st with doppler := set2 st.doppler idx v.1.toNat v.2.1
            intensity := set2 st.intensity idx v.1.toNat v.2.2.1
            beta := set2 st.beta idx v.1.toNat v.2.2.2 }

/-- The pure effect of one record group at record index idx. -/
def applyGroup (idx : ℕ) (st : Buffers) (g : RecordGroup) : Buffers :=
  g.gates.foldl (applyGate idx) (applyScalar idx st g.scalar)

/-- The pure effect of a list of record groups starting at record
index k. -/
def applyGroups : ℕ → Buffers → List RecordGroup → Buffers
  | _, st, [] => st
  | k, st, g :: gs => applyGroups (k + 1) (applyGroup k st g) gs

/-- The trim boundary the method computes for a given input: the first
nan of the stage-one time buffer (line 119). -/
def trimLen (lines : List String) : Option ℕ :=
  (stageBuffers lines).toOption.bind fun s => firstNan s.2.2.time

end Hpl

namespace Hpl

/-! ### Concrete example inputs

Example files used as witnesses and counterexamples; egFile is the
concrete scenario of the specification (three gates, one record). -/

/-- The eleven header lines of the example file (three gates). -/
def egHeader : List String :=
  [ "Filename:f.hpl"
  , "System ID:1"
  , "Number of gates: 3"
  , "Range gate length (m): 30.0"
  , "Gate length pts:10"
  , "Pulses:10000"
  , "No. of rays in file:1"
  , "Scan type:Stare"
  , "Focus range:65535"
  , "Start time: 20210315 13:30:00.00"
  , "Resolution:0.1" ]

/-- The six discarded label lines. -/
def egLabels : List String := ["L1", "L2", "L3", "L4", "L5", "L6"]

/-- The metadata dictionary the header parser produces on egHeader. -/
def egMeta : Metadata :=
  [ ("Filename", .vStr "f.hpl")
  , ("System ID", .vStr "1")
  , ("Number of gates", .vStr " 3")
  , ("Range gate length (m)", .vStr " 30.0")
  , ("Gate length pts", .vStr "10")
  , ("Pulses", .vStr "10000")
  , ("No. of rays in file", .vStr "1")
  , ("Scan type", .vStr "Stare")
  , ("Focus range", .vStr "65535")
  , ("Start time", .vList [" 20210315 13", "30", "00.00"])
  , ("Resolution", .vStr "0.1") ]

/-- The header start date 2021-03-15. -/
def egStartDate : Date := ⟨2021, 3, 15⟩

/-- One record group, three gate lines in declared order 0, 1, 2. -/
def egGroups : List RecordGroup :=
  [⟨"1.0 180.0 5.0 0.1 -0.1",
    ["0 1.2 3.4 5.6", "1 2.2 4.4 6.6", "2 3.2 5.4 7.6"]⟩]

/-- The example file: header, labels, one record group, blank line. -/
def egFile : List String :=
  egHeader ++ egLabels ++
  [ "1.0 180.0 5.0 0.1 -0.1"
  , "0 1.2 3.4 5.6"
  , "1 2.2 4.4 6.6"
  , "2 3.2 5.4 7.6"
  , "" ]

/-- The dataset the method returns on egFile. -/
def egDataset : Dataset :=
  { range_gate := [0, 1, 2]
    decimalTime := [.num 1]
    azimuth := [.num 180]
    elevation := [.num 5]
    pitch := [.num (mkRat 1 10)]
    roll := [.num (mkRat (-1) 10)]
    doppler := [[.num (mkRat 6 5), .num (mkRat 11 5), .num (mkRat 16 5)]]
    intensity := [[.num (mkRat 17 5), .num (mkRat 22 5), .num (mkRat 27 5)]]
    beta := [[.num (mkRat 17 5), .num (mkRat 22 5), .num (mkRat 27 5)]]
    timestamp := [⟨egStartDate, 3600000000⟩]
    timeCoord := [⟨egStartDate, 3600000000⟩]
    rangeGateLength := .num 30 }

/-- A file with a header but no data records at all. -/
def emptyFile : List String := egHeader ++ egLabels

/-- The dataset the method returns on emptyFile: no error, zero
records. -/
def emptyDataset : Dataset :=
  { range_gate := [0, 1, 2]
    decimalTime := []
    azimuth := []
    elevation := []
    pitch := []
    roll := []
    doppler := []
    intensity := []
    beta := []
    timestamp := []
    timeCoord := []
    rangeGateLength := .num 30 }

/-- A single-gate header, otherwise identical to egHeader. -/
def oneGateHeader : List String :=
  [ "Filename:f.hpl"
  , "System ID:1"
  , "Number of gates: 1"
  , "Range gate length (m): 30.0"
  , "Gate length pts:10"
  , "Pulses:10000"
  , "No. of rays in file:1"
  , "Scan type:Stare"
  , "Focus range:65535"
  , "Start time: 20210315 13:30:00.00"
  , "Resolution:0.1" ]

/-- The metadata dictionary of the single-gate header. -/
def oneGateMeta : Metadata :=
  [ ("Filename", .vStr "f.hpl")
  , ("System ID", .vStr "1")
  , ("Number of gates", .vStr " 1")
  , ("Range gate length (m)", .vStr " 30.0")
  , ("Gate length pts", .vStr "10")
  , ("Pulses", .vStr "10000")
  , ("No. of rays in file", .vStr "1")
  , ("Scan type", .vStr "Stare")
  , ("Focus range", .vStr "65535")
  , ("Start time", .vList [" 20210315 13", "30", "00.00"])
  , ("Resolution", .vStr "0.1") ]

/-- A two-gate header, otherwise identical to egHeader. -/
def twoGateHeader : List String :=
  [ "Filename:f.hpl"
  , "System ID:1"
  , "Number of gates: 2"
  , "Range gate length (m): 30.0"
  , "Gate length pts:10"
  , "Pulses:10000"
  , "No. of rays in file:1"
  , "Scan type:Stare"
  , "Focus range:65535"
  , "Start time: 20210315 13:30:00.00"
  , "Resolution:0.1" ]

/-- A file whose second gate line declares the negative gate index -1
(with two gates configured): numpy wraps the write to gate 1 and the
read succeeds. -/
def negFile : List String :=
  twoGateHeader ++ egLabels ++
  [ "1.5 180.0 5.0 0.1 -0.1"
  , "-1 1.0 2.0 3.0"
  , "0 4.0 5.0 6.0" ]

/-- The dataset the method returns on negFile: the values of the line
declaring gate -1 landed at gate 1. -/
def negDataset : Dataset :=
  { range_gate := [0, 1]
    decimalTime := [.num (mkRat 3 2)]
    azimuth := [.num 180]
    elevation := [.num 5]
    pitch := [.num (mkRat 1 10)]
    roll := [.num (mkRat (-1) 10)]
    doppler := [[.num 4, .num 1]]
    intensity := [[.num 5, .num 2]]
    beta := [[.num 5, .num 2]]
    timestamp := [⟨egStartDate, 5400000000⟩]
    timeCoord := [⟨egStartDate, 5400000000⟩]
    rangeGateLength := .num 30 }

/-- A file whose first record has the decimal time nan and whose second
record is fully populated: the trim scan stops at index 0. -/
def gapFile : List String :=
  oneGateHeader ++ egLabels ++
  [ "nan 0 0 0 0"
  , "0 1 2 3"
  , "2.0 0 0 0 0"
  , "0 4 5 6" ]

/-- The dataset the method returns on gapFile: everything trimmed to
length 0 although record 1 was populated. -/
def gapDataset : Dataset :=
  { range_gate := [0]
    decimalTime := []
    azimuth := []
    elevation := []
    pitch := []
    roll := []
    doppler := []
    intensity := []
    beta := []
    timestamp := []
    timeCoord := []
    rangeGateLength := .num 30 }

/-- A file whose first scalar line has only two tokens: the read fails
at record index 0, input line 18. -/
def shortScalarFile : List String := egHeader ++ egLabels ++ ["1.0 2.0"]

/-- A file whose second scalar line has only three tokens, after one
complete record group: the read fails at record index 1, input line
20. -/
def shortScalarFile2 : List String :=
  oneGateHeader ++ egLabels ++
  [ "1.0 0 0 0 0"
  , "0 1 2 3"
  , "2.0 0 0" ]

/-- A two-gate file whose second gate line of the first group has only
two tokens: the read fails inside the gate loop. -/
def gateShortFile : List String :=
  twoGateHeader ++ egLabels ++
  [ "1.0 0 0 0 0"
  , "0 1 2 3"
  , "1 2.0" ]

/-- A two-gate file that ends after only one of the two gate lines of
its record group: the read fails on stream exhaustion mid-group. -/
def truncFile : List String :=
  twoGateHeader ++ egLabels ++
  [ "1.0 0 0 0 0"
  , "0 1 2 3" ]

/-- The metadata dictionary of the two-gate header. -/
def twoGateMeta : Metadata :=
  [ ("Filename", .vStr "f.hpl")
  , ("System ID", .vStr "1")
  , ("Number of gates", .vStr " 2")
  , ("Range gate length (m)", .vStr " 30.0")
  , ("Gate length pts", .vStr "10")
  , ("Pulses", .vStr "10000")
  , ("No. of rays in file", .vStr "1")
  , ("Scan type", .vStr "Stare")
  , ("Focus range", .vStr "65535")
  , ("Start time", .vList [" 20210315 13", "30", "00.00"])
  , ("Resolution", .vStr "0.1") ]

/-- A single-gate file with decimal time 13.5, the timestamp example of
the specification. -/
def c3File : List String :=
  oneGateHeader ++ egLabels ++
  [ "13.5 180.0 5.0 0.1 -0.1"
  , "0 1 2 3"
  , "" ]

/-- The dataset the method returns on c3File. -/
def c3Dataset : Dataset :=
  { range_gate := [0]
    decimalTime := [.num (mkRat 27 2)]
    azimuth := [.num 180]
    elevation := [.num 5]
    pitch := [.num (mkRat 1 10)]
    roll := [.num (mkRat (-1) 10)]
    doppler := [[.num 1]]
    intensity := [[.num 2]]
    beta := [[.num 2]]
    timestamp := [⟨egStartDate, 48600000000⟩]
    timeCoord := [⟨egStartDate, 48600000000⟩]
    rangeGateLength := .num 30 }

end Hpl

namespace Hpl

/-! ### Basic lemmas about the embedded primitives -/

theorem pySplit_empty : pySplit "" = [] := rfl

theorem npSet1_lt {f : ℕ → FVal} {i : ℕ} {v : FVal} (h : i < maxLen) :
    npSet1 f i v = .ok (setF f i v) := by
  simp [npSet1, h]

theorem npSet2_inRange {f : ℕ → ℕ → FVal} {i : ℕ} {rg : ℤ} {n : ℕ} {v : FVal}
    (hi : i < maxLen) (h0 : 0 ≤ rg) (hn : rg < (n : ℤ)) :
    npSet2 f i rg n v = .ok (set2 f i rg.toNat v) := by
  simp [npSet2, hi, h0, hn]

theorem npSet2_wrap {f : ℕ → ℕ → FVal} {i : ℕ} {rg : ℤ} {n : ℕ} {v : FVal}
    (hi : i < maxLen) (hl : -(n : ℤ) ≤ rg) (hn : rg < 0) :
    npSet2 f i rg n v = .ok (set2 f i ((n : ℤ) + rg).toNat v) := by
  have h1 : ¬ (0 ≤ rg ∧ rg < (n : ℤ)) := by omega
  simp [npSet2, hi, h1, hl, hn]

theorem npSet2_oob {f : ℕ → ℕ → FVal} {i : ℕ} {rg : ℤ} {n : ℕ} {v : FVal}
    (hi : i < maxLen) (h : (n : ℤ) ≤ rg ∨ rg < -(n : ℤ)) :
    npSet2 f i rg n v = .error (.numpyOob rg n) := by
  have h1 : ¬ (0 ≤ rg ∧ rg < (n : ℤ)) := by omega
  have h2 : ¬ (-(n : ℤ) ≤ rg ∧ rg < 0) := by omega
  simp [npSet2, hi, h1, h2]

theorem getTok_some {l : List String} {i : ℕ} {t : String}
    (h : l.get? i = some t) : getTok l i = .ok t := by
  unfold getTok
  rw [h]

theorem getTok_none {l : List String} {i : ℕ}
    (h : l.get? i = none) : getTok l i = .error .listIndexError := by
  unfold getTok
  rw [h]

theorem readN_snd : ∀ (n : ℕ) (ls : List String), (readN n ls).2 = ls.drop n := by
  intro n
  induction n with
  | zero => intro ls; rfl
  | succ m ih =>
    intro ls
    cases ls with
    | nil =>
      simp [readN, readline, ih]
    | cons l rest =>
      simp [readN, readline, ih]

theorem readN_fst : ∀ (n : ℕ) (ls : List String), n ≤ ls.length →
    (readN n ls).1 = ls.take n := by
  intro n
  induction n with
  | zero => intro ls _; rfl
  | succ m ih =>
    intro ls h
    cases ls with
    | nil => simp at h
    | cons l rest =>
      simp only [readN, readline, List.take]
      rw [ih rest (by simpa using h)]

end Hpl

namespace Hpl

theorem wfScalar_elim {s : String} (h : wfScalar s = true) :
    ∃ t0 t1 t2 t3 t4 rest v0 v1 v2 v3 v4,
      pySplit s = t0 :: t1 :: t2 :: t3 :: t4 :: rest ∧
      pyFloat? t0 = some v0 ∧ pyFloat? t1 = some v1 ∧ pyFloat? t2 = some v2 ∧
      pyFloat? t3 = some v3 ∧ pyFloat? t4 = some v4 := by
  unfold wfScalar at h
  cases hsp : pySplit s with
  | nil => rw [hsp] at h; simp at h
  | cons t0 ts =>
    cases ts with
    | nil => rw [hsp] at h; simp at h
    | cons t1 ts =>
      cases ts with
      | nil => rw [hsp] at h; simp at h
      | cons t2 ts =>
        cases ts with
        | nil => rw [hsp] at h; simp at h
        | cons t3 ts =>
          cases ts with
          | nil => rw [hsp] at h; simp at h
          | cons t4 rest =>
            rw [hsp] at h
            simp only [Bool.and_eq_true, Option.isSome_iff_exists] at h
            obtain ⟨⟨⟨⟨⟨v0, h0⟩, v1, h1⟩, v2, h2⟩, v3, h3⟩, v4, h4⟩ := h
            exact ⟨t0, t1, t2, t3, t4, rest, v0, v1, v2, v3, v4,
              rfl, h0, h1, h2, h3, h4⟩

theorem wfGate_elim {n : ℕ} {s : String} (h : wfGate n s = true) :
    ∃ t0 t1 t2 t3 rest rg v1 v2 v3,
      pySplit s = t0 :: t1 :: t2 :: t3 :: rest ∧ pyInt? t0 = some rg ∧
      0 ≤ rg ∧ rg < (n : ℤ) ∧
      pyFloat? t1 = some v1 ∧ pyFloat? t2 = some v2 ∧ pyFloat? t3 = some v3 := by
  unfold wfGate at h
  cases hsp : pySplit s with
  | nil => rw [hsp] at h; simp at h
  | cons t0 ts =>
    cases ts with
    | nil => rw [hsp] at h; simp at h
    | cons t1 ts =>
      cases ts with
      | nil => rw [hsp] at h; simp at h
      | cons t2 ts =>
        cases ts with
        | nil => rw [hsp] at h; simp at h
        | cons t3 rest =>
          rw [hsp] at h
          simp only [Bool.and_eq_true, Option.isSome_iff_exists] at h
          obtain ⟨⟨⟨hm, v1, h1⟩, v2, h2⟩, v3, h3⟩ := h
          cases hrg : pyInt? t0 with
          | none => rw [hrg] at hm; simp at hm
          | some rg =>
            rw [hrg] at hm
            simp only [decide_eq_true_eq] at hm
            exact ⟨t0, t1, t2, t3, rest, rg, v1, v2, v3,
              rfl, hrg, hm.1, hm.2, h1, h2, h3⟩

theorem readScalarLine_ok {s t0 t1 t2 t3 t4 : String} {rest : List String}
    {v0 v1 v2 v3 v4 : FVal} {idx : ℕ} {st : Buffers}
    (hsp : pySplit s = t0 :: t1 :: t2 :: t3 :: t4 :: rest)
    (h0 : pyFloat? t0 = some v0) (h1 : pyFloat? t1 = some v1)
    (h2 : pyFloat? t2 = some v2) (h3 : pyFloat? t3 = some v3)
    (h4 : pyFloat? t4 = some v4) (hidx : idx < maxLen) :
    readScalarLine idx st (pySplit s) = .ok (applyScalar idx st s) := by
  rw [hsp]
  simp only [readScalarLine, applyScalar, scalarVals, hsp, bind, Except.bind,
    getTok, parseF, List.get?, h0, h1, h2, h3, h4, npSet1_lt hidx,
    Option.bind, Option.getD, pure, Except.pure]

theorem readGateLine_ok {n : ℕ} {s t0 t1 t2 t3 : String} {rest : List String}
    {rg : ℤ} {v1 v2 v3 : FVal} {idx : ℕ} {st : Buffers}
    (hsp : pySplit s = t0 :: t1 :: t2 :: t3 :: rest)
    (hrg : pyInt? t0 = some rg) (hge : 0 ≤ rg) (hlt : rg < (n : ℤ))
    (h1 : pyFloat? t1 = some v1) (h2 : pyFloat? t2 = some v2)
    (h3 : pyFloat? t3 = some v3) (hidx : idx < maxLen) :
    readGateLine idx n st s = .ok (applyGate idx st s) := by
  simp only [readGateLine, applyGate, gateVals, hsp, bind, Except.bind,
    getTok, parseF, parseI, List.get?, hrg, h1, h2, h3,
    npSet2_inRange hidx hge hlt, Option.bind, Option.getD, pure, Except.pure]

end Hpl

namespace Hpl

theorem readGates_rest_le {n : ℕ} : ∀ (m idx : ℕ) (st : Buffers)
    (lines : List String) {st2 : Buffers} {rest : List String},
    readGates n m idx st lines = .ok (st2, rest) → rest.length ≤ lines.length := by
  intro m
  induction m with
  | zero =>
    intro idx st lines st2 rest h
    simp only [readGates, Except.ok.injEq, Prod.mk.injEq] at h
    rw [← h.2]
  | succ m ih =>
    intro idx st lines st2 rest h
    simp only [readGates] at h
    cases hgl : readGateLine idx n st (readline lines).1 with
    | error e => rw [hgl] at h; simp at h
    | ok st1 =>
      rw [hgl] at h
      refine le_trans (ih idx st1 (readline lines).2 h) ?_
      cases lines <;> simp [readline]

theorem readGates_through {n : ℕ} : ∀ (gates : List String) (m idx : ℕ)
    (st : Buffers) (rest : List String),
    (∀ s ∈ gates, wfGate n s = true) → idx < maxLen →
    readGates n (gates.length + m) idx st (gates ++ rest) =
      readGates n m idx (gates.foldl (applyGate idx) st) rest := by
  intro gates
  induction gates with
  | nil => intro m idx st rest _ _; simp
  | cons g gs ih =>
    intro m idx st rest hwf hidx
    obtain ⟨t0, t1, t2, t3, r, rg, v1, v2, v3, hsp, hrg, hge, hlt, h1, h2, h3⟩ :=
      wfGate_elim (hwf g (by simp))
    have hlen : (g :: gs).length + m = (gs.length + m) + 1 := by
      simp [List.length_cons]; omega
    rw [hlen]
    simp only [readGates, readline, List.cons_append]
    rw [readGateLine_ok hsp hrg hge hlt h1 h2 h3 hidx]
    rw [List.foldl_cons]
    exact ih m idx (applyGate idx st g) rest (fun s hs => hwf s (by simp [hs])) hidx

theorem readGates_exact {n : ℕ} {gates : List String} {idx : ℕ} {st : Buffers}
    {rest : List String}
    (hwf : ∀ s ∈ gates, wfGate n s = true) (hidx : idx < maxLen)
    (hlen : gates.length = n) :
    readGates n n idx st (gates ++ rest) =
      .ok (gates.foldl (applyGate idx) st, rest) := by
  have h := readGates_through gates 0 idx st rest hwf hidx
  rw [hlen] at h
  simpa [readGates] using h

theorem readRecordsAux_nil {n : ℕ} : ∀ (fuel idx : ℕ) (st : Buffers),
    readRecordsAux n fuel [] idx st = .ok st := by
  intro fuel idx st
  cases fuel with
  | zero => rfl
  | succ f => simp [readRecordsAux, readline, pySplit_empty]

theorem readRecordsAux_fuel {n : ℕ} : ∀ (f g : ℕ) (lines : List String)
    (idx : ℕ) (st : Buffers), lines.length ≤ f → lines.length ≤ g →
    readRecordsAux n f lines idx st = readRecordsAux n g lines idx st := by
  intro f
  induction f with
  | zero =>
    intro g lines idx st hf _
    have h0 : lines = [] := List.eq_nil_of_length_eq_zero (Nat.le_zero.mp hf)
    rw [h0, readRecordsAux_nil, readRecordsAux_nil]
  | succ f ih =>
    intro g lines idx st hf hg
    cases lines with
    | nil => rw [readRecordsAux_nil, readRecordsAux_nil]
    | cons l ls =>
      cases g with
      | zero => simp at hg
      | succ g2 =>
        simp only [readRecordsAux, readline]
        by_cases hb : pySplit l = []
        · simp [hb]
        · rw [if_neg hb, if_neg hb]
          split
          · rfl
          · next st1 hsc =>
            split
            · rfl
            · next st2 rest hrg =>
              have hr : rest.length ≤ ls.length := readGates_rest_le n idx st1 ls hrg
              have hf2 : ls.length ≤ f := by simpa using Nat.le_of_succ_le_succ hf
              have hg2 : ls.length ≤ g2 := by simpa using Nat.le_of_succ_le_succ hg
              exact ih g2 rest (idx + 1) st2 (le_trans hr hf2) (le_trans hr hg2)

theorem wfGroup_elim {n : ℕ} {g : RecordGroup} (h : wfGroup n g = true) :
    wfScalar g.scalar = true ∧ g.gates.length = n ∧
      ∀ s ∈ g.gates, wfGate n s = true := by
  unfold wfGroup at h
  simp only [Bool.and_eq_true, beq_iff_eq, List.all_eq_true] at h
  exact ⟨h.1.1, h.1.2, h.2⟩

theorem readRecords_group {n : ℕ} {g : RecordGroup} {suffix : List String}
    {idx : ℕ} {st : Buffers}
    (hwf : wfGroup n g = true) (hidx : idx < maxLen) :
    readRecords n (g.scalar :: (g.gates ++ suffix)) idx st =
      readRecords n suffix (idx + 1) (applyGroup idx st g) := by
  obtain ⟨hs, hlen, hgates⟩ := wfGroup_elim hwf
  obtain ⟨t0, t1, t2, t3, t4, r, v0, v1, v2, v3, v4, hsp, h0, h1, h2, h3, h4⟩ :=
    wfScalar_elim hs
  unfold readRecords
  simp only [List.length_cons, readRecordsAux, readline]
  have hne : ¬ (pySplit g.scalar = []) := by rw [hsp]; simp
  rw [if_neg hne]
  rw [readScalarLine_ok hsp h0 h1 h2 h3 h4 hidx]
  simp [readGates_exact hgates hidx hlen]
  exact readRecordsAux_fuel _ _ _ _ _ (by simp) (le_refl _)

theorem readRecords_flat {n : ℕ} : ∀ (gs : List RecordGroup) (k : ℕ)
    (st : Buffers) (suffix : List String),
    (∀ g ∈ gs, wfGroup n g = true) → k + gs.length ≤ maxLen →
    readRecords n (flattenGroups gs ++ suffix) k st =
      readRecords n suffix (k + gs.length) (applyGroups k st gs) := by
  intro gs
  induction gs with
  | nil => intro k st suffix _ _; simp [flattenGroups, applyGroups]
  | cons g gs ih =>
    intro k st suffix hwf hcap
    have hsplit : flattenGroups (g :: gs) ++ suffix =
        g.scalar :: (g.gates ++ (flattenGroups gs ++ suffix)) := by
      simp [flattenGroups]
    have hk : k < maxLen := by simp [List.length_cons] at hcap; omega
    rw [hsplit, readRecords_group (hwf g (by simp)) hk,
      ih (k + 1) _ suffix (fun x hx => hwf x (by simp [hx]))
        (by simp [List.length_cons] at hcap ⊢; omega)]
    have harith : k + 1 + gs.length = k + (g :: gs).length := by
      simp [List.length_cons]; omega
    rw [harith]
    rfl

end Hpl

namespace Hpl

theorem applyGate_time {idx : ℕ} {st : Buffers} {s : String} :
    (applyGate idx st s).time = st.time := rfl

theorem foldl_applyGate_time {idx : ℕ} : ∀ (gates : List String) (st : Buffers),
    (gates.foldl (applyGate idx) st).time = st.time := by
  intro gates
  induction gates with
  | nil => intro st; rfl
  | cons g gs ih => intro st; rw [List.foldl_cons, ih]; rfl

theorem applyGroup_time {idx : ℕ} {st : Buffers} {g : RecordGroup} :
    (applyGroup idx st g).time = setF st.time idx (scalarVals g.scalar).1 := by
  unfold applyGroup
  rw [foldl_applyGate_time]
  rfl

theorem applyGroups_time_lt : ∀ (gs : List RecordGroup) (k : ℕ) (st : Buffers)
    (j : ℕ), j < k → (applyGroups k st gs).time j = st.time j := by
  intro gs
  induction gs with
  | nil => intro k st j _; rfl
  | cons g gs ih =>
    intro k st j hj
    simp only [applyGroups]
    rw [ih (k + 1) _ j (by omega), applyGroup_time]
    simp [setF, Nat.ne_of_lt hj]

theorem applyGroups_time_ge : ∀ (gs : List RecordGroup) (k : ℕ) (st : Buffers)
    (j : ℕ), k + gs.length ≤ j → (applyGroups k st gs).time j = st.time j := by
  intro gs
  induction gs with
  | nil => intro k st j _; rfl
  | cons g gs ih =>
    intro k st j hj
    simp only [applyGroups]
    rw [ih (k + 1) _ j (by simp [List.length_cons] at hj; omega), applyGroup_time]
    have : j ≠ k := by simp [List.length_cons] at hj; omega
    simp [setF, this]

theorem applyGroups_time_mid : ∀ (gs : List RecordGroup) (k : ℕ) (st : Buffers)
    (i : ℕ) (h : i < gs.length),
    (applyGroups k st gs).time (k + i) = (scalarVals (gs.get ⟨i, h⟩).scalar).1 := by
  intro gs
  induction gs with
  | nil => intro k st i h; simp at h
  | cons g gs ih =>
    intro k st i h
    cases i with
    | zero =>
      simp only [applyGroups]
      rw [applyGroups_time_lt gs (k + 1) _ (k + 0) (by omega), applyGroup_time]
      simp [setF]
    | succ i2 =>
      simp only [applyGroups]
      have harith : k + (i2 + 1) = (k + 1) + i2 := by omega
      rw [harith, ih (k + 1) _ i2 (by simpa [List.length_cons, Nat.succ_lt_succ_iff] using h)]
      rfl

theorem scanNan_first {t : ℕ → FVal} : ∀ (fuel i m : ℕ), i ≤ m → m < i + fuel →
    (∀ j, i ≤ j → j < m → (t j).isNan = false) → (t m).isNan = true →
    scanNan t i fuel = some m := by
  intro fuel
  induction fuel with
  | zero =>
    intro i m h1 h2 _ _
    exact absurd (lt_of_le_of_lt h1 h2) (by omega)
  | succ fuel ih =>
    intro i m h1 h2 hpre hm
    simp only [scanNan]
    by_cases hi : i = m
    · subst hi; simp [hm]
    · have hlt : i < m := lt_of_le_of_ne h1 hi
      rw [hpre i (le_refl i) hlt]
      simp only [Bool.false_eq_true, if_false]
      exact ih (i + 1) m hlt (by omega) (fun j hj1 hj2 => hpre j (by omega) hj2) hm

theorem firstNan_applyGroups {gs : List RecordGroup}
    (hnn : ∀ g ∈ gs, ((scalarVals g.scalar).1).isNan = false)
    (hcap : gs.length < maxLen) :
    firstNan (applyGroups 0 initBuffers gs).time = some gs.length := by
  apply scanNan_first maxLen 0 gs.length (Nat.zero_le _) (by omega)
  · intro j _ hj
    have h0 : (0 : ℕ) + j = j := by omega
    rw [← h0, applyGroups_time_mid gs 0 initBuffers j hj]
    exact hnn _ (List.get_mem gs j hj)
  · rw [applyGroups_time_ge gs 0 initBuffers gs.length (by omega)]
    rfl

end Hpl

namespace Hpl

theorem mapME_ok_of {α β : Type} {f : α → Except ReadErr β} : ∀ (l : List α),
    (∀ x ∈ l, ∃ y, f x = .ok y) →
    ∃ ys, mapME f l = .ok ys ∧ ys.length = l.length := by
  intro l
  induction l with
  | nil => intro _; exact ⟨[], rfl, rfl⟩
  | cons x xs ih =>
    intro h
    obtain ⟨y, hy⟩ := h x (by simp)
    obtain ⟨ys, hys, hlen⟩ := ih (fun z hz => h z (by simp [hz]))
    refine ⟨y :: ys, ?_, by simp [hlen]⟩
    simp [mapME, hy, hys]

theorem mapME_length {α β : Type} {f : α → Except ReadErr β} : ∀ (l : List α)
    (ys : List β), mapME f l = .ok ys → ys.length = l.length := by
  intro l
  induction l with
  | nil =>
    intro ys h
    simp only [mapME, Except.ok.injEq] at h
    rw [← h]
    rfl
  | cons x xs ih =>
    intro ys h
    simp only [mapME] at h
    cases hx : f x with
    | error e => rw [hx] at h; simp at h
    | ok y =>
      rw [hx] at h
      cases hxs : mapME f xs with
      | error e => rw [hxs] at h; simp at h
      | ok zs =>
        rw [hxs] at h
        simp only [Except.ok.injEq] at h
        rw [← h]
        simp [ih zs hxs]

theorem mapME_get {α β : Type} {f : α → Except ReadErr β} : ∀ (l : List α)
    (ys : List β) (r : ℕ) (x : α), mapME f l = .ok ys → l.get? r = some x →
    ∃ y, f x = .ok y ∧ ys.get? r = some y := by
  intro l
  induction l with
  | nil => intro ys r x _ hx; simp at hx
  | cons a xs ih =>
    intro ys r x h hx
    simp only [mapME] at h
    cases ha : f a with
    | error e => rw [ha] at h; simp at h
    | ok y =>
      rw [ha] at h
      cases hxs : mapME f xs with
      | error e => rw [hxs] at h; simp at h
      | ok zs =>
        rw [hxs] at h
        simp only [Except.ok.injEq] at h
        subst h
        cases r with
        | zero =>
          simp only [List.get?] at hx
          cases hx
          exact ⟨y, ha, rfl⟩
        | succ r2 =>
          simp only [List.get?] at hx
          obtain ⟨y2, hy2, hget⟩ := ih zs r2 x hxs hx
          exact ⟨y2, hy2, by simpa using hget⟩

theorem read_ok_elim {lines : List String} {ds : Dataset}
    (h : HplHandler.read lines = .ok ds) :
    ∃ md n st, stageBuffers lines = .ok (md, n, st) ∧ assemble md n st = .ok ds := by
  unfold HplHandler.read at h
  cases hst : stageBuffers lines with
  | error e => rw [hst] at h; simp [bind, Except.bind] at h
  | ok s =>
    obtain ⟨md, n, st⟩ := s
    rw [hst] at h
    simp only [bind, Except.bind] at h
    exact ⟨md, n, st, rfl, h⟩

theorem assemble_ok_elim {md : Metadata} {n : ℕ} {st : Buffers} {ds : Dataset}
    (h : assemble md n st = .ok ds) :
    ∃ li d tt s rgl, firstNan st.time = some li ∧ mkStartDate md = .ok d ∧
      mapME (mkTimestamp d) (sliceF st.time li) = .ok tt ∧
      lookupMeta md "Range gate length (m)" = some (.vStr s) ∧
      parseF s = .ok rgl ∧
      ds = { range_gate := List.range n
             decimalTime := sliceF st.time li
             azimuth := sliceF st.azimuth li
             elevation := sliceF st.elevation li
             pitch := sliceF st.pitch li
             roll := sliceF st.roll li
             doppler := sliceRows st.doppler li n
             intensity := sliceRows st.intensity li n
             beta := sliceRows st.intensity li n
             timestamp := tt
             timeCoord := tt
             rangeGateLength := rgl } := by
  unfold assemble at h
  cases hfn : firstNan st.time with
  | none => rw [hfn] at h; simp [bind, Except.bind] at h
  | some li =>
    rw [hfn] at h
    simp only [bind, Except.bind] at h
    cases hd : mkStartDate md with
    | error e => rw [hd] at h; simp at h
    | ok d =>
      rw [hd] at h
      simp only [] at h
      cases htt : mapME (mkTimestamp d) (sliceF st.time li) with
      | error e => rw [htt] at h; simp at h
      | ok tt =>
        rw [htt] at h
        simp only [] at h
        cases hlk : lookupMeta md "Range gate length (m)" with
        | none => rw [hlk] at h; simp at h
        | some hv =>
          rw [hlk] at h
          cases hv with
          | vList l => simp at h
          | vStr s =>
            simp only [] at h
            cases hp : parseF s with
            | error e => rw [hp] at h; simp at h
            | ok rgl =>
              rw [hp] at h
              simp only [pure, Except.pure, Except.ok.injEq] at h
              exact ⟨li, d, tt, s, rgl, rfl, rfl, htt, rfl, hp, h.symm⟩

theorem stage_intro {lines : List String} {md : Metadata} {z : ℤ} {st : Buffers}
    (hmd : parseMetadata (readN 11 lines).1 [] = .ok md)
    (hz : getNumGates md = .ok z) (hz0 : 0 ≤ z)
    (hst : readRecords z.toNat (readN 6 (readN 11 lines).2).2 0 initBuffers = .ok st) :
    stageBuffers lines = .ok (md, z.toNat, st) := by
  unfold stageBuffers
  simp only [bind, Except.bind, hmd, hz]
  rw [if_neg (not_lt.mpr hz0)]
  simp only [hst, pure, Except.pure]

theorem stage_elim {lines : List String} {md : Metadata} {n : ℕ} {st : Buffers}
    (h : stageBuffers lines = .ok (md, n, st)) :
    ∃ z, parseMetadata (readN 11 lines).1 [] = .ok md ∧ getNumGates md = .ok z ∧
      0 ≤ z ∧ n = z.toNat ∧
      readRecords z.toNat (readN 6 (readN 11 lines).2).2 0 initBuffers = .ok st := by
  unfold stageBuffers at h
  simp only [bind, Except.bind] at h
  cases hmd : parseMetadata (readN 11 lines).1 [] with
  | error e => rw [hmd] at h; simp [bind, Except.bind] at h
  | ok md2 =>
    rw [hmd] at h
    simp only [bind, Except.bind] at h
    cases hz : getNumGates md2 with
    | error e => rw [hz] at h; simp at h
    | ok z =>
      rw [hz] at h
      simp only [] at h
      by_cases hneg : z < 0
      · rw [if_pos hneg] at h; simp [throw, throwThe, MonadExceptOf.throw] at h
      · rw [if_neg hneg] at h
        cases hst : readRecords z.toNat (readN 6 (readN 11 lines).2).2 0 initBuffers with
        | error e => rw [hst] at h; simp at h
        | ok st2 =>
          rw [hst] at h
          simp only [pure, Except.pure, Except.ok.injEq, Prod.mk.injEq] at h
          obtain ⟨h1, h2, h3⟩ := h
          subst h1; subst h2; subst h3
          exact ⟨z, rfl, hz, not_lt.mp hneg, rfl, hst⟩

end Hpl



namespace Hpl

/-! ### The microsecond conversion computes the truncated product -/

theorem tdiv_mul_right (a : ℤ) (b k : ℕ) (hk0 : k ≠ 0) :
    Int.tdiv (a * k) ((b : ℤ) * k) = Int.tdiv a b := by
  have hk : 0 < k := Nat.pos_of_ne_zero hk0
  rcases Int.natAbs_eq a with h | h
  · rw [h]
    have h1 : (a.natAbs : ℤ) * k = ((a.natAbs * k : ℕ) : ℤ) := by push_cast; ring
    have h2 : ((b : ℤ)) * k = ((b * k : ℕ) : ℤ) := by push_cast; ring
    rw [h1, h2, ← Int.ofNat_tdiv, ← Int.ofNat_tdiv, Nat.mul_div_mul_right _ _ hk]
  · rw [h, Int.neg_mul, Int.neg_tdiv, Int.neg_tdiv]
    congr 1
    have h1 : (a.natAbs : ℤ) * k = ((a.natAbs * k : ℕ) : ℤ) := by push_cast; ring
    have h2 : ((b : ℤ)) * k = ((b * k : ℕ) : ℤ) := by push_cast; ring
    rw [h1, h2, ← Int.ofNat_tdiv, ← Int.ofNat_tdiv, Nat.mul_div_mul_right _ _ hk]

theorem tdiv_normalize (N : ℤ) (D : ℕ) (hD : D ≠ 0) :
    Int.tdiv (Rat.normalize N D hD).num (Rat.normalize N D hD).den =
      Int.tdiv N D := by
  rw [Rat.normalize_eq]
  have hgN : ((N.natAbs.gcd D : ℕ) : ℤ) ∣ N :=
    Int.ofNat_dvd_left.2 (Nat.gcd_dvd_left _ _)
  have hgD : N.natAbs.gcd D ∣ D := Nat.gcd_dvd_right _ _
  have hg0 : N.natAbs.gcd D ≠ 0 := by
    intro h0
    exact hD (Nat.eq_zero_of_gcd_eq_zero_right h0)
  have hN : N / (N.natAbs.gcd D : ℤ) * (N.natAbs.gcd D : ℤ) = N :=
    Int.ediv_mul_cancel hgN
  have hD2 : D / N.natAbs.gcd D * N.natAbs.gcd D = D :=
    Nat.div_mul_cancel hgD
  calc Int.tdiv (N / (N.natAbs.gcd D : ℤ)) ((D / N.natAbs.gcd D : ℕ) : ℤ)
      = Int.tdiv (N / (N.natAbs.gcd D : ℤ) * (N.natAbs.gcd D : ℤ))
          (((D / N.natAbs.gcd D : ℕ) : ℤ) * (N.natAbs.gcd D : ℤ)) := by
        rw [tdiv_mul_right _ _ _ hg0]
    _ = Int.tdiv N D := by
        rw [hN]
        have hcast : ((D / N.natAbs.gcd D : ℕ) : ℤ) * (N.natAbs.gcd D : ℤ) = (D : ℤ) := by
          exact_mod_cast hD2
        rw [hcast]

theorem usOfHours_eq_truncRat (q : ℚ) :
    usOfHours q = truncRat (q * 3600 * 1000000) := by
  have hx : q * 3600 * 1000000 = q * 3600000000 := by ring
  rw [hx]
  have hmul : q * (3600000000 : ℚ) =
      Rat.normalize (q.num * 3600000000) (q.den * 1)
        (Nat.mul_ne_zero q.den_nz one_ne_zero) := by
    rw [Rat.mul_def]
    norm_num
  unfold truncRat usOfHours
  rw [hmul, tdiv_normalize]
  rw [Nat.mul_one]
  congr 1
  ring

end Hpl

namespace Hpl

theorem read_intro {lines : List String} {md : Metadata} {n : ℕ} {st : Buffers}
    {ds : Dataset} (h1 : stageBuffers lines = .ok (md, n, st))
    (h2 : assemble md n st = .ok ds) : HplHandler.read lines = .ok ds := by
  unfold HplHandler.read
  simp only [bind, Except.bind, h1, h2]

theorem assemble_intro {md : Metadata} {n : ℕ} {st : Buffers} {li : ℕ} {d : Date}
    {tt : List Timestamp} {s : String} {rgl : FVal}
    (hfn : firstNan st.time = some li) (hd : mkStartDate md = .ok d)
    (htt : mapME (mkTimestamp d) (sliceF st.time li) = .ok tt)
    (hlk : lookupMeta md "Range gate length (m)" = some (.vStr s))
    (hrgl : parseF s = .ok rgl) :
    assemble md n st = .ok
      { range_gate := List.range n
        decimalTime := sliceF st.time li
        azimuth := sliceF st.azimuth li
        elevation := sliceF st.elevation li
        pitch := sliceF st.pitch li
        roll := sliceF st.roll li
        doppler := sliceRows st.doppler li n
        intensity := sliceRows st.intensity li n
        beta := sliceRows st.intensity li n
        timestamp := tt
        timeCoord := tt
        rangeGateLength := rgl } := by
  unfold assemble
  simp only [hfn, bind, Except.bind, hd, htt, hlk, hrgl, pure, Except.pure]

theorem readRecords_terminal {n k : ℕ} {st : Buffers} {trailer : List String}
    (htrail : ∀ t ts, trailer = t :: ts → pySplit t = []) :
    readRecords n trailer k st = .ok st := by
  cases htr : trailer with
  | nil => exact readRecordsAux_nil _ _ _
  | cons t ts =>
    have hb := htrail t ts htr
    unfold readRecords
    simp only [List.length_cons, readRecordsAux, readline]
    rw [if_pos hb]

end Hpl

namespace Hpl

/-- C10: for every input file on which the read operation returns a
dataset, the returned field Beta is element-wise identical to the
returned field Intensity: lines 134 and 135 both assign the slice
intensity[:last_ind, :]. -/
theorem claim_C10 (lines : List String) (ds : Dataset)
    (h : HplHandler.read lines = .ok ds) : ds.beta = ds.intensity := by
  obtain ⟨md, n, st, hst, has⟩ := read_ok_elim h
  obtain ⟨li, d, tt, s, rgl, _, _, _, _, _, hds⟩ := assemble_ok_elim has
  subst hds
  rfl

theorem claim_C10_witness : egDataset.beta = egDataset.intensity :=
  claim_C10 egFile egDataset (by decide)

/-- C1: the claim that the output field Beta at [r, g] equals the
fourth token of the gate line is violated by the code: line 135 assigns
the intensity slice to Beta, so on egFile (whose first gate line is
0 1.2 3.4 5.6) the Beta entry for gate 0 is 3.4, the third token, while
the fourth token 5.6 parses to 28/5 which never appears in Beta; the
beta buffer filled on line 108 is discarded. -/
theorem claim_C1 :
    HplHandler.read egFile = .ok egDataset ∧
    (pySplit "0 1.2 3.4 5.6").get? 3 = some "5.6" ∧
    pyFloat? "5.6" = some (.num (mkRat 28 5)) ∧
    egDataset.beta =
      [[.num (mkRat 17 5), .num (mkRat 22 5), .num (mkRat 27 5)]] ∧
    ¬ (mkRat 17 5 = mkRat 28 5) :=
  ⟨by decide, by decide, by decide, by decide, by decide⟩

/-- C2 counterexample: on a file with a header but zero data-record
groups, the read does not fail with any error; it returns a dataset
with zero records (there is no EmptyFile failure path in the code). -/
theorem claim_C2_counterexample :
    HplHandler.read emptyFile = .ok emptyDataset ∧
    emptyDataset.decimalTime.length = 0 ∧ emptyDataset.timestamp = [] :=
  ⟨by decide, by decide, by decide⟩

/-- C2 as amended: for every input whose data section starts with a
blank line or end of stream (and whose header parses), the read
operation succeeds and returns a dataset with time dimension length
zero; no error of any kind is raised. -/
theorem claim_C2 (lines : List String) (md : Metadata) (z : ℤ) (d : Date)
    (s : String) (rgl : FVal)
    (hmd : parseMetadata (readN 11 lines).1 [] = .ok md)
    (hz : getNumGates md = .ok z) (hz0 : 0 ≤ z)
    (hdata : ∀ t ts, (readN 6 (readN 11 lines).2).2 = t :: ts → pySplit t = [])
    (hd : mkStartDate md = .ok d)
    (hlk : lookupMeta md "Range gate length (m)" = some (.vStr s))
    (hrgl : parseF s = .ok rgl) :
    (HplHandler.read lines).map (fun ds => ds.decimalTime) = .ok [] ∧
    (HplHandler.read lines).map (fun ds => ds.timestamp) = .ok [] ∧
    (HplHandler.read lines).map (fun ds => ds.doppler) = .ok [] ∧
    (HplHandler.read lines).map (fun ds => ds.range_gate.length) = .ok z.toNat := by
  have hst : readRecords z.toNat (readN 6 (readN 11 lines).2).2 0 initBuffers =
      .ok initBuffers := readRecords_terminal hdata
  have hfn : firstNan initBuffers.time = some 0 := rfl
  have htt : mapME (mkTimestamp d) (sliceF initBuffers.time 0) = .ok [] := rfl
  have hread := read_intro (stage_intro hmd hz hz0 hst)
    (assemble_intro hfn hd htt hlk hrgl)
  rw [hread]
  exact ⟨rfl, rfl, rfl, by simp [Except.map, List.length_range]⟩

/-- C5 counterexample: a gate line declaring the negative index -1
does not make the read fail; numpy wraps the index and the line's
values are stored at gate num_gates - 1, and the read succeeds. -/
theorem claim_C5_counterexample :
    HplHandler.read negFile = .ok negDataset ∧
    negDataset.doppler = [[.num 4, .num 1]] ∧
    negDataset.intensity = [[.num 5, .num 2]] :=
  ⟨by decide, by decide, by decide⟩

/-- C5 as amended: a declared gate index at or above num_gates, or
below -num_gates, aborts the decoding of the line with a numpy
IndexError; but a negative index in [-num_gates, 0) is accepted and the
values are stored at gate num_gates + index (numpy wrap-around), not
rejected. -/
theorem claim_C5 (idx n : ℕ) (st : Buffers) (s t0 t1 t2 t3 : String)
    (rest : List String) (rg : ℤ) (v1 v2 v3 : FVal)
    (hsp : pySplit s = t0 :: t1 :: t2 :: t3 :: rest)
    (hrg : pyInt? t0 = some rg)
    (h1 : pyFloat? t1 = some v1) (h2 : pyFloat? t2 = some v2)
    (h3 : pyFloat? t3 = some v3) (hidx : idx < maxLen) :
    (((n : ℤ) ≤ rg ∨ rg < -(n : ℤ)) →
      readGateLine idx n st s = .error (.numpyOob rg n)) ∧
    (-(n : ℤ) ≤ rg → rg < 0 →
      readGateLine idx n st s = .ok
        { st with doppler := set2 st.doppler idx ((n : ℤ) + rg).toNat v1
                  intensity := set2 st.intensity idx ((n : ℤ) + rg).toNat v2
                  beta := set2 st.beta idx ((n : ℤ) + rg).toNat v3 }) := by
  constructor
  · intro hoob
    simp only [readGateLine, hsp, bind, Except.bind, getTok, parseI, parseF,
      List.get?, hrg, h1, npSet2_oob hidx hoob]
  · intro hl hn
    simp only [readGateLine, hsp, bind, Except.bind, getTok, parseI, parseF,
      List.get?, hrg, h1, h2, h3, npSet2_wrap hidx hl hn, pure, Except.pure]

theorem claim_C5_witness :
    readGateLine 0 2 initBuffers "5 1.0 2.0 3.0" = .error (.numpyOob 5 2) ∧
    readGateLine 0 2 initBuffers "-1 1.0 2.0 3.0" = .ok
      { initBuffers with
          doppler := set2 initBuffers.doppler 0 1 (.num 1)
          intensity := set2 initBuffers.intensity 0 1 (.num 2)
          beta := set2 initBuffers.beta 0 1 (.num 3) } := by
  constructor
  · exact (claim_C5 0 2 initBuffers "5 1.0 2.0 3.0" "5" "1.0" "2.0" "3.0" []
      5 (.num 1) (.num 2) (.num 3) (by decide) (by decide) (by decide)
      (by decide) (by decide) (by decide)).1 (by decide)
  · exact (claim_C5 0 2 initBuffers "-1 1.0 2.0 3.0" "-1" "1.0" "2.0" "3.0" []
      (-1) (.num 1) (.num 2) (.num 3) (by decide) (by decide) (by decide)
      (by decide) (by decide) (by decide)).2 (by decide) (by decide)

/-- C4 counterexample: on the standard start-time header line the
literal Start time occurs only as token 0 of the colon split, so the
claim's condition (membership in the remainder after the first token)
is false, yet the code stores the tokens from index 1 on under the key
Start time: the claimed biconditional fails in the right-to-left
direction on every ordinary input file. -/
theorem claim_C4_counterexample :
    processLine [] "Start time: 20210315 13:30:00.00" =
      .ok [("Start time", .vList [" 20210315 13", "30", "00.00"])] ∧
    ¬ ("Start time" ∈ (splitColon "Start time: 20210315 13:30:00.00").tail) :=
  ⟨by decide, by decide⟩

/-- C4 as amended: the special branch is taken exactly when the full
colon-token list (including the first token) contains the literal Start
time, in which case the tokens from index 1 on are stored under the key
Start time; every other line stores token 1 under token 0 with later
tokens discarded; metadata extraction consumes exactly the first 11
lines and record decoding starts at line 17. -/
theorem claim_C4 :
    (∀ (md : Metadata) (line : String), "Start time" ∈ splitColon line →
      processLine md line =
        .ok (setEntry md "Start time" (.vList (splitColon line).tail))) ∧
    (∀ (md : Metadata) (line t0 t1 : String) (rest : List String),
      "Start time" ∉ splitColon line → splitColon line = t0 :: t1 :: rest →
      processLine md line = .ok (setEntry md t0 (.vStr t1))) ∧
    (∀ lines : List String, 11 ≤ lines.length →
      (readN 11 lines).1 = lines.take 11) ∧
    (∀ lines : List String, (readN 6 (readN 11 lines).2).2 = lines.drop 17) := by
  refine ⟨?_, ?_, ?_, ?_⟩
  · intro md line h
    simp [processLine, h]
  · intro md line t0 t1 rest hnot hsp
    rw [hsp] at hnot
    simp [processLine, hsp, hnot]
  · exact fun lines h => readN_fst 11 lines h
  · intro lines
    rw [readN_snd, readN_snd, List.drop_drop]

theorem claim_C4_witness :
    processLine [] "Start time:x" =
      .ok (setEntry [] "Start time" (.vList ["x"])) ∧
    processLine [] "Pulses:10000" =
      .ok (setEntry [] "Pulses" (.vStr "10000")) := by
  constructor
  · exact claim_C4.1 [] "Start time:x" (by decide)
  · exact claim_C4.2.1 [] "Pulses:10000" "Pulses" "10000" [] (by decide)
      (by decide)

end Hpl

namespace Hpl

/-- C7: for every successful read, every output array is sliced to the
same length, namely the first index at which the stage-one time buffer
holds nan scanning from index 0 (trimLen); the second group of
conjuncts shows on gapFile (first record time nan, second record fully
populated, time buffer entry 1 holds 2.0) that the boundary is the
first missing index 0, not the index after the last non-missing
entry. -/
theorem claim_C7 :
    (∀ (lines : List String) (ds : Dataset), HplHandler.read lines = .ok ds →
      trimLen lines = some ds.decimalTime.length ∧
      ds.azimuth.length = ds.decimalTime.length ∧
      ds.elevation.length = ds.decimalTime.length ∧
      ds.pitch.length = ds.decimalTime.length ∧
      ds.roll.length = ds.decimalTime.length ∧
      ds.doppler.length = ds.decimalTime.length ∧
      ds.intensity.length = ds.decimalTime.length ∧
      ds.beta.length = ds.decimalTime.length ∧
      ds.timestamp.length = ds.decimalTime.length) ∧
    ((stageBuffers gapFile).map (fun s => s.2.2.time 1) = .ok (.num 2) ∧
      trimLen gapFile = some 0 ∧
      HplHandler.read gapFile = .ok gapDataset ∧
      gapDataset.decimalTime.length = 0) := by
  constructor
  · intro lines ds h
    obtain ⟨md, n, st, hst, has⟩ := read_ok_elim h
    obtain ⟨li, d, tt, s, rgl, hfn, hd, htt, hlk, hrgl, hds⟩ := assemble_ok_elim has
    subst hds
    have hdt : (sliceF st.time li).length = li := by simp [sliceF]
    refine ⟨?_, ?_, ?_, ?_, ?_, ?_, ?_, ?_, ?_⟩
    · simp [trimLen, hst, Except.toOption, hfn, hdt]
    · simp [sliceF]
    · simp [sliceF]
    · simp [sliceF]
    · simp [sliceF]
    · simp [sliceRows, sliceF]
    · simp [sliceRows, sliceF]
    · simp [sliceRows, sliceF]
    · simp [hdt, mapME_length _ _ htt, sliceF]
  · exact ⟨by decide, by decide, by decide, by decide⟩

theorem claim_C7_witness :
    trimLen egFile = some egDataset.decimalTime.length ∧
    egDataset.azimuth.length = egDataset.decimalTime.length ∧
    egDataset.elevation.length = egDataset.decimalTime.length ∧
    egDataset.pitch.length = egDataset.decimalTime.length ∧
    egDataset.roll.length = egDataset.decimalTime.length ∧
    egDataset.doppler.length = egDataset.decimalTime.length ∧
    egDataset.intensity.length = egDataset.decimalTime.length ∧
    egDataset.beta.length = egDataset.decimalTime.length ∧
    egDataset.timestamp.length = egDataset.decimalTime.length :=
  claim_C7.1 egFile egDataset (by decide)

/-- C3: for every record r whose decimal-hour value is the rational q,
the derived timestamp is the base date (year, month, day extracted from
the header Start time token at character offsets 1-8, time of day
hard-coded to midnight) plus the truncation toward zero of
q * 3600 * 1000000 microseconds. -/
theorem claim_C3 (lines : List String) (md : Metadata) (n : ℕ) (st : Buffers)
    (ds : Dataset) (r : ℕ) (q : ℚ) (d : Date)
    (hst : stageBuffers lines = .ok (md, n, st))
    (hread : HplHandler.read lines = .ok ds)
    (hq : ds.decimalTime.get? r = some (.num q))
    (hd : mkStartDate md = .ok d) :
    ds.timestamp.get? r = some ⟨d, truncRat (q * 3600 * 1000000)⟩ := by
  obtain ⟨md2, n2, st2, hst2, has⟩ := read_ok_elim hread
  rw [hst] at hst2
  have hmd : md = md2 := by
    have := congrArg (fun x => x.toOption.map (fun y => y.1)) hst2
    simpa [Except.toOption] using this
  have hst3 : st = st2 := by
    have := congrArg (fun x => x.toOption.map (fun y => y.2.2)) hst2
    simpa [Except.toOption] using this
  subst hmd
  subst hst3
  obtain ⟨li, d2, tt, s, rgl, hfn, hd2, htt, hlk, hrgl, hds⟩ := assemble_ok_elim has
  subst hds
  rw [hd] at hd2
  have hdd : d = d2 := by injection hd2
  subst hdd
  obtain ⟨y, hy, hget⟩ := mapME_get _ tt r _ htt hq
  simp only [mkTimestamp] at hy
  have hy2 : y = ⟨d, usOfHours q⟩ := by
    injection hy with h
    exact h.symm
  rw [hget, hy2, usOfHours_eq_truncRat]

theorem claim_C3_witness :
    c3Dataset.timestamp.get? 0 =
      some ⟨⟨2021, 3, 15⟩, truncRat ((mkRat 27 2) * 3600 * 1000000)⟩ ∧
    usOfHours (mkRat 27 2) = 48600000000 ∧
    (48600000000 : ℤ) = (13 * 3600 + 30 * 60) * 1000000 := by
  refine ⟨?_, by decide, by decide⟩
  exact claim_C3 c3File oneGateMeta 1 _ c3Dataset 0 (mkRat 27 2) ⟨2021, 3, 15⟩
    rfl (by decide) (by decide) (by decide)

end Hpl

namespace Hpl

theorem claim_C2_witness :
    (HplHandler.read emptyFile).map (fun ds => ds.decimalTime) = .ok [] ∧
    (HplHandler.read emptyFile).map (fun ds => ds.timestamp) = .ok [] ∧
    (HplHandler.read emptyFile).map (fun ds => ds.doppler) = .ok [] ∧
    (HplHandler.read emptyFile).map (fun ds => ds.range_gate.length) = .ok 3 :=
  claim_C2 emptyFile egMeta 3 egStartDate " 30.0" (.num 30)
    (by decide) (by decide) (by decide)
    (fun t ts ht => List.noConfusion ht)
    (by decide) (by decide) (by decide)

/-- C6: for every well-formed input file (header parses, every record
group has a parseable scalar line with a non-missing decimal-hour
value and num_gates well-formed in-range gate lines, fewer than the
buffer capacity of records, data terminated by a blank line or end of
stream), the read succeeds, the time dimension length equals the
number of scalar-line groups, and the range_gate dimension length
equals the header's Number of gates value. -/
theorem claim_C6 (lines hdr : List String) (gs : List RecordGroup)
    (trailer : List String) (md : Metadata) (z : ℤ) (d : Date) (s : String)
    (rgl : FVal)
    (hsplit : lines = hdr ++ (flattenGroups gs ++ trailer))
    (hhdr : hdr.length = 17)
    (hmd : parseMetadata (readN 11 lines).1 [] = .ok md)
    (hz : getNumGates md = .ok z) (hz0 : 0 ≤ z)
    (hwf : ∀ g ∈ gs, wfGroup z.toNat g = true)
    (hnn : ∀ g ∈ gs, ((scalarVals g.scalar).1).isNan = false)
    (hcap : gs.length < maxLen)
    (htrail : ∀ t ts, trailer = t :: ts → pySplit t = [])
    (hd : mkStartDate md = .ok d)
    (hlk : lookupMeta md "Range gate length (m)" = some (.vStr s))
    (hrgl : parseF s = .ok rgl) :
    (HplHandler.read lines).map (fun ds => ds.decimalTime.length) = .ok gs.length ∧
    (HplHandler.read lines).map (fun ds => ds.timestamp.length) = .ok gs.length ∧
    (HplHandler.read lines).map (fun ds => ds.range_gate.length) = .ok z.toNat := by
  have hrest : (readN 6 (readN 11 lines).2).2 = flattenGroups gs ++ trailer := by
    rw [readN_snd, readN_snd, List.drop_drop, hsplit]
    have h17 : (11 + 6 : ℕ) = hdr.length := by rw [hhdr]
    rw [h17, List.drop_left]
  have hst : readRecords z.toNat (readN 6 (readN 11 lines).2).2 0 initBuffers =
      .ok (applyGroups 0 initBuffers gs) := by
    rw [hrest, readRecords_flat gs 0 initBuffers trailer hwf (by omega)]
    exact readRecords_terminal htrail
  have hfn : firstNan (applyGroups 0 initBuffers gs).time = some gs.length :=
    firstNan_applyGroups hnn hcap
  have hmem : ∀ x ∈ sliceF (applyGroups 0 initBuffers gs).time gs.length,
      ∃ y, mkTimestamp d x = .ok y := by
    intro x hx
    simp only [sliceF, List.mem_map, List.mem_range] at hx
    obtain ⟨i, hi, hxi⟩ := hx
    have hti : (applyGroups 0 initBuffers gs).time i =
        (scalarVals (gs.get ⟨i, hi⟩).scalar).1 := by
      simpa using applyGroups_time_mid gs 0 initBuffers i hi
    rw [← hxi, hti]
    have hnn2 := hnn _ (List.get_mem gs i hi)
    cases hval : (scalarVals (gs.get ⟨i, hi⟩).scalar).1 with
    | nan => rw [hval] at hnn2; simp [FVal.isNan] at hnn2
    | num q => exact ⟨⟨d, usOfHours q⟩, rfl⟩
  obtain ⟨tt, htt, httlen⟩ := mapME_ok_of _ hmem
  have hread := read_intro (stage_intro hmd hz hz0 hst)
    (assemble_intro hfn hd htt hlk hrgl)
  rw [hread]
  refine ⟨?_, ?_, ?_⟩
  · simp [Except.map, sliceF]
  · simp [Except.map, httlen, sliceF]
  · simp [Except.map, List.length_range]

theorem claim_C6_witness :
    (HplHandler.read egFile).map (fun ds => ds.decimalTime.length) = .ok 1 ∧
    (HplHandler.read egFile).map (fun ds => ds.timestamp.length) = .ok 1 ∧
    (HplHandler.read egFile).map (fun ds => ds.range_gate.length) = .ok 3 := by
  have h := claim_C6 egFile (egHeader ++ egLabels) egGroups [""] egMeta 3
    egStartDate " 30.0" (.num 30) (by decide) (by decide) (by decide)
    (by decide) (by decide) (by decide) (by decide) (by decide)
    (fun t ts ht => by injection ht with h1 _; rw [← h1]; rfl)
    (by decide) (by decide) (by decide)
  exact h

end Hpl

namespace Hpl

theorem set2_comm {f : ℕ → ℕ → FVal} {i g1 g2 : ℕ} {v1 v2 : FVal}
    (h : g1 ≠ g2) :
    set2 (set2 f i g1 v1) i g2 v2 = set2 (set2 f i g2 v2) i g1 v1 := by
  funext j k
  unfold set2
  by_cases hji : j = i
  · subst hji
    by_cases hk2 : k = g2 <;> by_cases hk1 : k = g1
    · exact absurd (hk1.symm.trans hk2) h
    · simp [hk2, hk1, Ne.symm h]
    · simp [hk2, hk1, h]
    · simp [hk2, hk1]
  · simp [hji]

theorem applyGate_comm {idx : ℕ} {st : Buffers} {x y : String}
    (h : (gateVals x).1.toNat ≠ (gateVals y).1.toNat) :
    applyGate idx (applyGate idx st x) y = applyGate idx (applyGate idx st y) x := by
  unfold applyGate
  dsimp only
  congr 1
  · exact set2_comm h
  · exact set2_comm h
  · exact set2_comm h

theorem gateVals_fst {s t0 : String} {bs : List String} {rg : ℤ}
    (hsp : pySplit s = t0 :: bs) (hrg : pyInt? t0 = some rg) :
    (gateVals s).1 = rg := by
  simp [gateVals, hsp, hrg]

theorem foldl_applyGate_perm {n : ℕ} {gates gates2 : List String}
    (hperm : gates.Perm gates2) :
    (∀ s ∈ gates, wfGate n s = true) →
    ((gates.map fun s => (gateVals s).1).Nodup) →
    ∀ (st : Buffers) (idx : ℕ),
      gates.foldl (applyGate idx) st = gates2.foldl (applyGate idx) st := by
  induction hperm with
  | nil => intro _ _ st idx; rfl
  | cons x l12 ih =>
    intro hwf hnd st idx
    rw [List.map_cons] at hnd
    simp only [List.foldl_cons]
    exact ih (fun s hs => hwf s (by simp [hs])) (List.nodup_cons.mp hnd).2 _ _
  | swap x y l =>
    intro hwf hnd st idx
    simp only [List.foldl_cons]
    obtain ⟨ty0, ty1, ty2, ty3, tyr, rgy, vy1, vy2, vy3, hspy, hrgy, hgey, _, _, _, _⟩ :=
      wfGate_elim (hwf y (by simp))
    obtain ⟨tx0, tx1, tx2, tx3, txr, rgx, vx1, vx2, vx3, hspx, hrgx, hgex, _, _, _, _⟩ :=
      wfGate_elim (hwf x (by simp))
    rw [List.map_cons, List.map_cons] at hnd
    have hnd1 := List.nodup_cons.mp hnd
    have hne : (gateVals y).1 ≠ (gateVals x).1 := by
      intro hcontra
      exact hnd1.1 (by rw [hcontra]; exact List.mem_cons_self _ _)
    have hne2 : (gateVals y).1.toNat ≠ (gateVals x).1.toNat := by
      intro hcontra
      apply hne
      rw [gateVals_fst hspy hrgy] at hcontra ⊢
      rw [gateVals_fst hspx hrgx] at hcontra ⊢
      rw [← Int.toNat_of_nonneg hgey, ← Int.toNat_of_nonneg hgex, hcontra]
    rw [applyGate_comm hne2]
  | trans h12 h23 ih12 ih23 =>
    intro hwf hnd st idx
    rw [ih12 hwf hnd st idx]
    exact ih23 (fun s hs => hwf s (h12.mem_iff.mpr hs))
      ((h12.map _).nodup_iff.mp hnd) st idx

/-- C8: within a record group the values of each gate line are stored
at the gate index the line itself declares (the fold applies each line
at (gateVals line).1), so decoding a group is invariant under
permuting its gate lines when the declared indices are distinct and in
range: both runs succeed with identical buffers. -/
theorem claim_C8 (n idx : ℕ) (st : Buffers) (gates gates2 rest : List String)
    (hperm : gates.Perm gates2)
    (hwf : ∀ s ∈ gates, wfGate n s = true)
    (hnd : (gates.map fun s => (gateVals s).1).Nodup)
    (hidx : idx < maxLen) (hlen : gates.length = n) :
    readGates n n idx st (gates ++ rest) = readGates n n idx st (gates2 ++ rest) ∧
    readGates n n idx st (gates ++ rest) =
      .ok (gates.foldl (applyGate idx) st, rest) := by
  have hwf2 : ∀ s ∈ gates2, wfGate n s = true :=
    fun s hs => hwf s (hperm.mem_iff.mpr hs)
  have hlen2 : gates2.length = n := hperm.length_eq.symm.trans hlen
  rw [readGates_exact hwf hidx hlen, readGates_exact hwf2 hidx hlen2]
  exact ⟨by rw [foldl_applyGate_perm hperm hwf hnd st idx], rfl⟩

theorem claim_C8_witness :
    readGates 2 2 0 initBuffers (["0 1.0 2.0 3.0", "1 4.0 5.0 6.0"] ++ []) =
      readGates 2 2 0 initBuffers (["1 4.0 5.0 6.0", "0 1.0 2.0 3.0"] ++ []) :=
  (claim_C8 2 0 initBuffers ["0 1.0 2.0 3.0", "1 4.0 5.0 6.0"]
    ["1 4.0 5.0 6.0", "0 1.0 2.0 3.0"] [] (by decide) (by decide) (by decide)
    (by decide) (by decide)).1

end Hpl

namespace Hpl

theorem npSet2_ok {f : ℕ → ℕ → FVal} {i : ℕ} {rg : ℤ} {n : ℕ} {v : FVal}
    (hi : i < maxLen) (hl : -(n : ℤ) ≤ rg) (hn : rg < (n : ℤ)) :
    ∃ f2, npSet2 f i rg n v = .ok f2 := by
  by_cases h0 : 0 ≤ rg
  · exact ⟨_, npSet2_inRange hi h0 hn⟩
  · exact ⟨_, npSet2_wrap hi hl (by omega)⟩

theorem readScalarLine_short (idx : ℕ) (st : Buffers) (a : List String)
    (hne : a ≠ []) (hlen : a.length < 5)
    (hall : ∀ t ∈ a, (pyFloat? t).isSome) (hidx : idx < maxLen) :
    readScalarLine idx st a = .error .listIndexError := by
  cases a with
  | nil => exact absurd rfl hne
  | cons t0 a1 =>
    obtain ⟨v0, h0⟩ := Option.isSome_iff_exists.mp (hall t0 (by simp))
    cases a1 with
    | nil =>
      simp only [readScalarLine, bind, Except.bind, getTok, List.get?, parseF,
        h0, npSet1_lt hidx]
    | cons t1 a2 =>
      obtain ⟨v1, h1⟩ := Option.isSome_iff_exists.mp (hall t1 (by simp))
      cases a2 with
      | nil =>
        simp only [readScalarLine, bind, Except.bind, getTok, List.get?, parseF,
          h0, h1, npSet1_lt hidx]
      | cons t2 a3 =>
        obtain ⟨v2, h2⟩ := Option.isSome_iff_exists.mp (hall t2 (by simp))
        cases a3 with
        | nil =>
          simp only [readScalarLine, bind, Except.bind, getTok, List.get?,
            parseF, h0, h1, h2, npSet1_lt hidx]
        | cons t3 a4 =>
          obtain ⟨v3, h3⟩ := Option.isSome_iff_exists.mp (hall t3 (by simp))
          cases a4 with
          | nil =>
            simp only [readScalarLine, bind, Except.bind, getTok, List.get?,
              parseF, h0, h1, h2, h3, npSet1_lt hidx]
          | cons t4 a5 =>
            exfalso
            simp only [List.length_cons] at hlen
            omega

theorem readGateLine_short (idx n : ℕ) (st : Buffers) (s t0 : String)
    (bs : List String) (hsp : pySplit s = t0 :: bs) (hblen : bs.length < 3)
    (hrg : ∃ rg, pyInt? t0 = some rg ∧ -(n : ℤ) ≤ rg ∧ rg < (n : ℤ))
    (hall : ∀ t ∈ bs, (pyFloat? t).isSome) (hidx : idx < maxLen) :
    readGateLine idx n st s = .error .listIndexError := by
  obtain ⟨rg, hrg0, hl, hn⟩ := hrg
  cases bs with
  | nil =>
    simp only [readGateLine, hsp, bind, Except.bind, getTok, List.get?,
      parseI, hrg0]
  | cons t1 b2 =>
    obtain ⟨v1, h1⟩ := Option.isSome_iff_exists.mp (hall t1 (by simp))
    obtain ⟨f2, hf2⟩ := npSet2_ok (f := st.doppler) (v := v1) hidx hl hn
    cases b2 with
    | nil =>
      simp only [readGateLine, hsp, bind, Except.bind, getTok, List.get?,
        parseI, hrg0, parseF, h1, hf2]
    | cons t2 b3 =>
      obtain ⟨v2, h2⟩ := Option.isSome_iff_exists.mp (hall t2 (by simp))
      obtain ⟨g2, hg2⟩ := npSet2_ok (f := st.intensity) (v := v2) hidx hl hn
      cases b3 with
      | nil =>
        simp only [readGateLine, hsp, bind, Except.bind, getTok, List.get?,
          parseI, hrg0, parseF, h1, h2, hf2, hg2]
      | cons t3 b4 =>
        exfalso
        simp only [List.length_cons] at hblen
        omega

theorem readGates_stop {n m idx : ℕ} {st : Buffers} (hm : 0 < m) :
    readGates n m idx st [] = .error .listIndexError := by
  cases m with
  | zero => omega
  | succ m2 =>
    have hgl : readGateLine idx n st "" = .error .listIndexError := by
      simp only [readGateLine, pySplit_empty, bind, Except.bind, getTok,
        List.get?]
    simp only [readGates, readline, hgl]

theorem readGates_cons_error {n m idx : ℕ} {st : Buffers} {g : String}
    {rest2 : List String} (hm : 0 < m)
    (hg : readGateLine idx n st g = .error .listIndexError) :
    readGates n m idx st (g :: rest2) = .error .listIndexError := by
  cases m with
  | zero => omega
  | succ m2 => simp only [readGates, readline, hg]

theorem readRecords_cons {n k : ℕ} {st : Buffers} {l : String} {ls : List String}
    (hne : pySplit l ≠ []) :
    readRecords n (l :: ls) k st =
      (match readScalarLine k st (pySplit l) with
       | .error e => .error e
       | .ok st1 =>
         match readGates n n k st1 ls with
         | .error e => .error e
         | .ok (st2, rest) => readRecordsAux n ls.length rest (k + 1) st2) := by
  unfold readRecords
  simp only [List.length_cons, readRecordsAux, readline]
  rw [if_neg hne]

theorem stage_intro_error {lines : List String} {md : Metadata} {z : ℤ}
    {e : ReadErr}
    (hmd : parseMetadata (readN 11 lines).1 [] = .ok md)
    (hz : getNumGates md = .ok z) (hz0 : 0 ≤ z)
    (hst : readRecords z.toNat (readN 6 (readN 11 lines).2).2 0 initBuffers =
      .error e) :
    stageBuffers lines = .error e := by
  unfold stageBuffers
  simp only [bind, Except.bind, hmd, hz]
  rw [if_neg (not_lt.mpr hz0)]
  simp only [hst]

theorem read_error_intro {lines : List String} {e : ReadErr}
    (h : stageBuffers lines = .error e) : HplHandler.read lines = .error e := by
  unfold HplHandler.read
  simp only [bind, Except.bind, h]

end Hpl

namespace Hpl

/-- C9 as amended: a non-empty scalar line with fewer than 5 tokens, a
gate line with fewer than 4 tokens, and stream exhaustion before
num_gates gate lines have been read each abort the read with an
uncaught IndexError whose constant message carries no input line
number and no record index (the payload-free listIndexError value is
the same wherever the failure occurs). -/
theorem claim_C9 (lines hdr : List String) (gs : List RecordGroup)
    (bad : List String) (md : Metadata) (z : ℤ)
    (hsplit : lines = hdr ++ (flattenGroups gs ++ bad))
    (hhdr : hdr.length = 17)
    (hmd : parseMetadata (readN 11 lines).1 [] = .ok md)
    (hz : getNumGates md = .ok z) (hz0 : 0 ≤ z)
    (hwf : ∀ g ∈ gs, wfGroup z.toNat g = true)
    (hcap : gs.length < maxLen) :
    (∀ s rest2, bad = s :: rest2 → pySplit s ≠ [] → (pySplit s).length < 5 →
      (∀ t ∈ pySplit s, (pyFloat? t).isSome) →
      HplHandler.read lines = .error .listIndexError) ∧
    (∀ s gpre gl rest2, bad = s :: (gpre ++ gl :: rest2) → wfScalar s = true →
      (∀ t ∈ gpre, wfGate z.toNat t = true) → gpre.length < z.toNat →
      ∀ t0 bs, pySplit gl = t0 :: bs → bs.length < 3 →
      (∃ rg, pyInt? t0 = some rg ∧ -(z.toNat : ℤ) ≤ rg ∧ rg < (z.toNat : ℤ)) →
      (∀ t ∈ bs, (pyFloat? t).isSome) →
      HplHandler.read lines = .error .listIndexError) ∧
    (∀ s gates, bad = s :: gates → wfScalar s = true →
      (∀ t ∈ gates, wfGate z.toNat t = true) → gates.length < z.toNat →
      HplHandler.read lines = .error .listIndexError) := by
  have hstream : (readN 6 (readN 11 lines).2).2 = flattenGroups gs ++ bad := by
    rw [readN_snd, readN_snd, List.drop_drop, hsplit]
    have h17 : (11 + 6 : ℕ) = hdr.length := by rw [hhdr]
    rw [h17, List.drop_left]
  have hred : readRecords z.toNat (readN 6 (readN 11 lines).2).2 0 initBuffers =
      readRecords z.toNat bad gs.length (applyGroups 0 initBuffers gs) := by
    rw [hstream, readRecords_flat gs 0 initBuffers bad hwf (by omega)]
    simp only [Nat.zero_add]
  have hk : gs.length < maxLen := hcap
  refine ⟨?_, ?_, ?_⟩
  · intro s rest2 hbad hne hlen5 hall
    apply read_error_intro
    apply stage_intro_error hmd hz hz0
    rw [hred, hbad, readRecords_cons hne,
      readScalarLine_short gs.length _ _ hne hlen5 hall hk]
  · intro s gpre gl rest2 hbad hws hwfp hplen t0 bs hspg hbs3 hrgex hallb
    apply read_error_intro
    apply stage_intro_error hmd hz hz0
    obtain ⟨u0, u1, u2, u3, u4, ur, w0, w1, w2, w3, w4, hsp, hh0, hh1, hh2, hh3, hh4⟩ :=
      wfScalar_elim hws
    have hne : pySplit s ≠ [] := by rw [hsp]; simp
    rw [hred, hbad, readRecords_cons hne,
      readScalarLine_ok hsp hh0 hh1 hh2 hh3 hh4 hk]
    have hgg : readGates z.toNat z.toNat gs.length
        (applyScalar gs.length (applyGroups 0 initBuffers gs) s)
        (gpre ++ gl :: rest2) = .error .listIndexError := by
      have h2 := readGates_through (n := z.toNat) gpre (z.toNat - gpre.length)
        gs.length (applyScalar gs.length (applyGroups 0 initBuffers gs) s)
        (gl :: rest2) hwfp hk
      have harith : gpre.length + (z.toNat - gpre.length) = z.toNat := by omega
      rw [harith] at h2
      rw [h2]
      exact readGates_cons_error (by omega)
        (readGateLine_short gs.length z.toNat _ gl t0 bs hspg hbs3 hrgex hallb hk)
    simp only []
    rw [hgg]
  · intro s gates hbad hws hwfg hglen
    apply read_error_intro
    apply stage_intro_error hmd hz hz0
    obtain ⟨u0, u1, u2, u3, u4, ur, w0, w1, w2, w3, w4, hsp, hh0, hh1, hh2, hh3, hh4⟩ :=
      wfScalar_elim hws
    have hne : pySplit s ≠ [] := by rw [hsp]; simp
    rw [hred, hbad, readRecords_cons hne,
      readScalarLine_ok hsp hh0 hh1 hh2 hh3 hh4 hk]
    have hgg : readGates z.toNat z.toNat gs.length
        (applyScalar gs.length (applyGroups 0 initBuffers gs) s) gates =
        .error .listIndexError := by
      have hgapp : gates = gates ++ [] := by rw [List.append_nil]
      rw [hgapp]
      have h2 := readGates_through (n := z.toNat) gates (z.toNat - gates.length)
        gs.length (applyScalar gs.length (applyGroups 0 initBuffers gs) s)
        [] hwfg hk
      have harith : gates.length + (z.toNat - gates.length) = z.toNat := by omega
      rw [harith] at h2
      rw [h2]
      exact readGates_stop (by omega)
    simp only []
    rw [hgg]

/-- C9 counterexample: two inputs failing at different input positions
(shortScalarFile fails at record index 0, input line 18;
shortScalarFile2 fails at record index 1, input line 20) raise the
literally identical payload-free IndexError, so the error is not
reported with the line number and record index, and no MalformedRecord
error kind exists. -/
theorem claim_C9_counterexample :
    HplHandler.read shortScalarFile = .error .listIndexError ∧
    HplHandler.read shortScalarFile2 = .error .listIndexError ∧
    HplHandler.read shortScalarFile = HplHandler.read shortScalarFile2 :=
  ⟨by decide, by decide, by decide⟩

theorem claim_C9_witness :
    HplHandler.read shortScalarFile = .error .listIndexError ∧
    HplHandler.read gateShortFile = .error .listIndexError ∧
    HplHandler.read truncFile = .error .listIndexError := by
  refine ⟨?_, ?_, ?_⟩
  · exact (claim_C9 shortScalarFile (egHeader ++ egLabels) [] ["1.0 2.0"]
      egMeta 3 (by decide) (by decide) (by decide) (by decide) (by decide)
      (by decide) (by decide)).1 "1.0 2.0" [] rfl (by decide) (by decide)
      (by decide)
  · exact (claim_C9 gateShortFile (twoGateHeader ++ egLabels) []
      ["1.0 0 0 0 0", "0 1 2 3", "1 2.0"] twoGateMeta 2 (by decide)
      (by decide) (by decide) (by decide) (by decide) (by decide)
      (by decide)).2.1 "1.0 0 0 0 0" ["0 1 2 3"] "1 2.0" [] rfl (by decide)
      (by decide) (by decide) "1" ["2.0"] (by decide) (by decide)
      ⟨1, by decide, by decide, by decide⟩ (by decide)
  · exact (claim_C9 truncFile (twoGateHeader ++ egLabels) []
      ["1.0 0 0 0 0", "0 1 2 3"] twoGateMeta 2 (by decide) (by decide)
      (by decide) (by decide) (by decide) (by decide) (by decide)).2.2
      "1.0 0 0 0 0" ["0 1 2 3"] rfl (by decide) (by decide) (by decide)

end Hpl
